import Mathlib

/-!
Verification of the GS1 Barcode Syntax Engine core (ai.c, dl.c) against its
natural-language specification.  C strings are modelled as `List Char`
(the bytes before the NUL terminator); machine integers are `Nat`;
fallible functions return `Option` or `Except`.  Each definition is a
shallow embedding of the correspondingly named C function.
-/

/-- Byte list of a Lean string literal, used to write C string constants. -/
def s2l (s : String) : List Char := s.data

/-- The NUL byte. -/
def NULc : Char := Char.ofNat 0

/-- C `isxdigit` on the default locale: 0-9, a-f, A-F. -/
def isxdigitB (c : Char) : Bool :=
  c.isDigit || (decide ('a' ≤ c) && decide (c ≤ 'f')) || (decide ('A' ≤ c) && decide (c ≤ 'F'))

/-- Numeric value of a hexadecimal digit, as computed by `strtoul(hex, NULL, 16)`. -/
def hexValN (c : Char) : Nat :=
  if c.isDigit then c.toNat - 48
  else if decide ('a' ≤ c) && decide (c ≤ 'f') then c.toNat - 87
  else if decide ('A' ≤ c) && decide (c ≤ 'F') then c.toNat - 55
  else 0

/-- Loop of `URIunescape` (dl.c).  The first argument of the recursion is the
remaining output budget (`maxlen - j` in the C code, which bounds the loop by
`j < maxlen`), the second is the remaining input (`in + i`).  The C guard
`i < inlen - 2 && in[i] == '%' && isxdigit(in[i+1]) && isxdigit(in[i+2])`
corresponds to the three-element pattern match.  A well-formed escape that
decodes to NUL makes the whole call fail (C returns 0), modelled as `none`. -/
def URIunescapeGo (isQuery : Bool) : Nat → List Char → Option (List Char)
  | _, [] => some []
  | 0, _ :: _ => some []
  | Nat.succ m, c :: rest =>
    if c = '%' then
      match rest with
      | d1 :: d2 :: rest2 =>
        if isxdigitB d1 && isxdigitB d2 then
          let v := Char.ofNat (16 * hexValN d1 + hexValN d2)
          if 16 * hexValN d1 + hexValN d2 = 0 then none
          else (URIunescapeGo isQuery m rest2).map (fun l => v :: l)
        else (URIunescapeGo isQuery m rest).map (fun l => c :: l)
      | _ => (URIunescapeGo isQuery m rest).map (fun l => c :: l)
    else if isQuery && c = '+' then (URIunescapeGo isQuery m rest).map (fun l => ' ' :: l)
    else (URIunescapeGo isQuery m rest).map (fun l => c :: l)

/-- `URIunescape(out, maxlen, in, inlen, is_query_component)` from dl.c,
returning the decoded bytes, or `none` when the C function returns 0 because a
decoded byte was NUL. -/
def URIunescape (maxlen : Nat) (inp : List Char) (isQuery : Bool) : Option (List Char) :=
  URIunescapeGo isQuery maxlen inp

/-- The `size_t` actually returned by the C `URIunescape`: the number of bytes
written, with 0 doubling as the error indicator. -/
def URIunescapeRet (maxlen : Nat) (inp : List Char) (isQuery : Bool) : Nat :=
  match URIunescape maxlen inp isQuery with
  | none => 0
  | some l => l.length

/-- Output of `URIunescapeGo` never exceeds the budget. -/
theorem URIunescapeGo_length_le (isQuery : Bool) :
    ∀ n (l : List Char) (m : Nat) res, l.length ≤ n → URIunescapeGo isQuery m l = some res →
      res.length ≤ m := by
  intro n
  induction n with
  | zero =>
    rintro (_ | ⟨c, rest⟩) m res hl h
    · simp [URIunescapeGo] at h; simp [h]
    · simp at hl
  | succ n ih =>
    rintro (_ | ⟨c, rest⟩) m res hl h
    · simp [URIunescapeGo] at h; simp [h]
    · cases m with
      | zero => simp [URIunescapeGo] at h; simp [h]
      | succ m =>
        simp only [List.length_cons, Nat.add_le_add_iff_right] at hl
        rcases rest with _ | ⟨d1, _ | ⟨d2, rest2⟩⟩ <;>
          simp only [URIunescapeGo] at h <;>
          split_ifs at h <;>
          first
            | (exact Option.noConfusion h)
            | (obtain ⟨a, ha, rfl⟩ := Option.map_eq_some'.mp h
               refine List.length_cons _ _ ▸ Nat.succ_le_succ ?_
               exact ih _ m a (by simp at hl ⊢; omega) ha)
            | (simp at h; subst h; simp)

/-- A failing run of `URIunescapeGo` always stems from a processed well-formed
percent escape whose two hex digits decode to the NUL byte. -/
theorem URIunescapeGo_none_char (isQuery : Bool) :
    ∀ n (l : List Char) (m : Nat), l.length ≤ n → URIunescapeGo isQuery m l = none →
      ∃ pre d1 d2 suf, l = pre ++ '%' :: d1 :: d2 :: suf ∧ isxdigitB d1 = true ∧
        isxdigitB d2 = true ∧ 16 * hexValN d1 + hexValN d2 = 0 := by
  intro n
  induction n with
  | zero =>
    rintro (_ | ⟨c, rest⟩) m hl h
    · simp [URIunescapeGo] at h
    · simp at hl
  | succ n ih =>
    rintro (_ | ⟨c, rest⟩) m hl h
    · simp [URIunescapeGo] at h
    · cases m with
      | zero => simp [URIunescapeGo] at h
      | succ m =>
        simp only [List.length_cons, Nat.add_le_add_iff_right] at hl
        by_cases hc : c = '%'
        · subst hc
          rcases rest with _ | ⟨d1, _ | ⟨d2, rest2⟩⟩
          · simp [URIunescapeGo] at h
          · simp only [URIunescapeGo, eq_self_iff_true, if_true, Option.map_eq_none'] at h
            obtain ⟨pre, e1, e2, suf, hpre, h1, h2, h3⟩ := ih [d1] m (by simpa using hl) h
            exact ⟨'%' :: pre, e1, e2, suf, by simp [hpre], h1, h2, h3⟩
          · simp only [URIunescapeGo, eq_self_iff_true, if_true] at h
            by_cases hd : isxdigitB d1 && isxdigitB d2
            · simp only [if_pos hd] at h
              by_cases hz : 16 * hexValN d1 + hexValN d2 = 0
              · simp only [Bool.and_eq_true] at hd
                exact ⟨[], d1, d2, rest2, rfl, hd.1, hd.2, hz⟩
              · simp only [if_neg hz, Option.map_eq_none'] at h
                obtain ⟨pre, e1, e2, suf, hpre, h1, h2, h3⟩ :=
                  ih rest2 m (by simp at hl; omega) h
                exact ⟨'%' :: d1 :: d2 :: pre, e1, e2, suf, by simp [hpre], h1, h2, h3⟩
            · simp only [if_neg hd, Option.map_eq_none'] at h
              obtain ⟨pre, e1, e2, suf, hpre, h1, h2, h3⟩ :=
                ih (d1 :: d2 :: rest2) m (by simpa using hl) h
              exact ⟨'%' :: pre, e1, e2, suf, by simp [hpre], h1, h2, h3⟩
        · simp only [URIunescapeGo, if_neg hc] at h
          by_cases hq : isQuery && c = '+'
          · simp only [if_pos hq, Option.map_eq_none'] at h
            obtain ⟨pre, e1, e2, suf, hpre, h1, h2, h3⟩ := ih rest m hl h
            exact ⟨c :: pre, e1, e2, suf, by simp [hpre], h1, h2, h3⟩
          · simp only [if_neg hq, Option.map_eq_none'] at h
            obtain ⟨pre, e1, e2, suf, hpre, h1, h2, h3⟩ := ih rest m hl h
            exact ⟨c :: pre, e1, e2, suf, by simp [hpre], h1, h2, h3⟩

/-- With a budget at least the input length the loop cannot run out of budget,
so a smaller budget merely truncates the same decode. -/
theorem URIunescapeGo_take (isQuery : Bool) :
    ∀ n (l : List Char) (bigm : Nat) res, l.length ≤ n → l.length ≤ bigm →
      URIunescapeGo isQuery bigm l = some res →
      ∀ m, URIunescapeGo isQuery m l = some (res.take m) := by
  intro n
  induction n with
  | zero =>
    rintro (_ | ⟨c, rest⟩) bigm res hl hm h m
    · simp [URIunescapeGo] at h; subst h; simp [URIunescapeGo]
    · simp at hl
  | succ n ih =>
    rintro (_ | ⟨c, rest⟩) bigm res hl hm h m
    · simp [URIunescapeGo] at h; subst h; simp [URIunescapeGo]
    · cases bigm with
      | zero => simp at hm
      | succ bigm =>
        simp only [List.length_cons, Nat.add_le_add_iff_right] at hl
        simp only [List.length_cons, Nat.add_one_le_iff, Nat.lt_succ_iff] at hm
        by_cases hc : c = '%'
        · subst hc
          rcases rest with _ | ⟨d1, _ | ⟨d2, rest2⟩⟩
          · simp [URIunescapeGo] at h
            subst h
            cases m with
            | zero => simp [URIunescapeGo]
            | succ m => simp [URIunescapeGo]
          · simp only [URIunescapeGo, eq_self_iff_true, if_true, Option.map_eq_some'] at h
            obtain ⟨a, ha, rfl⟩ := h
            have hstep := ih [d1] bigm a (by simpa using hl) (by simpa using hm) ha
            cases m with
            | zero => simp [URIunescapeGo]
            | succ m => simp only [URIunescapeGo, eq_self_iff_true, if_true, hstep m, Option.map_some',
                List.take_succ_cons]
          · by_cases hd : isxdigitB d1 && isxdigitB d2
            · by_cases hz : 16 * hexValN d1 + hexValN d2 = 0
              · simp [URIunescapeGo, hd, hz] at h
              · simp only [URIunescapeGo, eq_self_iff_true, if_true, if_pos hd, if_neg hz,
                  Option.map_eq_some'] at h
                obtain ⟨a, ha, rfl⟩ := h
                have hstep := ih rest2 bigm a (by simp at hl; omega)
                  (by simp at hm; omega) ha
                cases m with
                | zero => simp [URIunescapeGo]
                | succ m => simp only [URIunescapeGo, eq_self_iff_true, if_true, if_pos hd, if_neg hz,
                    hstep m, Option.map_some', List.take_succ_cons]
            · simp only [URIunescapeGo, eq_self_iff_true, if_true, if_neg hd, Option.map_eq_some'] at h
              obtain ⟨a, ha, rfl⟩ := h
              have hstep := ih (d1 :: d2 :: rest2) bigm a (by simpa using hl)
                (by simp at hm ⊢; omega) ha
              cases m with
              | zero => simp [URIunescapeGo]
              | succ m => simp only [URIunescapeGo, eq_self_iff_true, if_true, if_neg hd, hstep m,
                  Option.map_some', List.take_succ_cons]
        · by_cases hq : isQuery && c = '+'
          · simp only [URIunescapeGo, if_neg hc, if_pos hq, Option.map_eq_some'] at h
            obtain ⟨a, ha, rfl⟩ := h
            have hstep := ih rest bigm a hl hm ha
            cases m with
            | zero => simp [URIunescapeGo, hc]
            | succ m => simp only [URIunescapeGo, if_neg hc, if_pos hq, hstep m,
                Option.map_some', List.take_succ_cons]
          · simp only [URIunescapeGo, if_neg hc, if_neg hq, Option.map_eq_some'] at h
            obtain ⟨a, ha, rfl⟩ := h
            have hstep := ih rest bigm a hl hm ha
            cases m with
            | zero => simp [URIunescapeGo, hc]
            | succ m => simp only [URIunescapeGo, if_neg hc, if_neg hq, hstep m,
                Option.map_some', List.take_succ_cons]

/-- A successful decode of a nonempty input with a positive budget is nonempty. -/
theorem URIunescapeGo_ne_nil (isQuery : Bool) (c : Char) (rest : List Char) (m : Nat)
    (res : List Char) (h : URIunescapeGo isQuery (m + 1) (c :: rest) = some res) :
    res ≠ [] := by
  by_cases hc : c = '%'
  · subst hc
    rcases rest with _ | ⟨d1, _ | ⟨d2, rest2⟩⟩ <;>
      simp only [URIunescapeGo, eq_self_iff_true, if_true] at h <;>
      [skip; skip; split_ifs at h] <;>
      first
        | (exact Option.noConfusion h)
        | (obtain ⟨a, ha, rfl⟩ := Option.map_eq_some'.mp h; simp)
  · simp only [URIunescapeGo, if_neg hc] at h
    split_ifs at h <;>
      (obtain ⟨a, ha, rfl⟩ := Option.map_eq_some'.mp h; simp)

/-- Modelled from the spec: ai.h with the engine limits is not among the
sources.  The AI value capacity used at the URIunescape call sites equals the
91-byte value buffers (`char aival[MAX_AI_VALUE_LEN + 1]`) and the spec's
cset-82 component bound of 90 for vivified unknown AIs. -/
def MAX_AI_VALUE_LEN : Nat := 90

/-- C9 counterexample: on the empty input (equally: with `maxlen = 0`) the C
function returns 0 — the claimed error indicator — although the input contains
no percent escape at all, so a zero return does not imply that a NUL-decoding
`%HH` was met. -/
theorem URIunescapeRet_zero_without_escape :
    URIunescapeRet 90 [] false = 0 ∧
      ¬ ∃ pre d1 d2 suf, ([] : List Char) = pre ++ '%' :: d1 :: d2 :: suf := by
  refine ⟨rfl, ?_⟩
  rintro ⟨pre, d1, d2, suf, h⟩
  have hl := congrArg List.length h
  simp at hl
  omega

/-- C9 (amended): a `%` that is not followed by two hexadecimal digits —
including a `%` within the last two characters of the input — is copied to the
output verbatim and decoding continues without error; a decode can only fail
(`none`, C return 0) because a processed well-formed `%HH` decoded to NUL; and
for a nonempty input with a nonzero `maxlen` the C return value 0 coincides
exactly with that failure. -/
theorem URIunescape_verbatim_percent_nul_only_failure :
    (∀ (isQuery : Bool) (m : Nat) (rest : List Char),
        (∀ d1 d2 r2, rest = d1 :: d2 :: r2 → ¬(isxdigitB d1 = true ∧ isxdigitB d2 = true)) →
        URIunescapeGo isQuery (m + 1) ('%' :: rest) =
          (URIunescapeGo isQuery m rest).map (fun l => '%' :: l)) ∧
    (∀ (maxlen : Nat) (inp : List Char) (isQuery : Bool),
        URIunescape maxlen inp isQuery = none →
        ∃ pre d1 d2 suf, inp = pre ++ '%' :: d1 :: d2 :: suf ∧ isxdigitB d1 = true ∧
          isxdigitB d2 = true ∧ 16 * hexValN d1 + hexValN d2 = 0) ∧
    (∀ (maxlen : Nat) (inp : List Char) (isQuery : Bool), inp ≠ [] → 0 < maxlen →
        (URIunescapeRet maxlen inp isQuery = 0 ↔ URIunescape maxlen inp isQuery = none)) := by
  refine ⟨?_, ?_, ?_⟩
  · intro isQuery m rest hno
    rcases rest with _ | ⟨d1, _ | ⟨d2, rest2⟩⟩
    · simp [URIunescapeGo]
    · simp [URIunescapeGo]
    · have hd : ¬(isxdigitB d1 && isxdigitB d2) := by
        intro hcontra
        simp only [Bool.and_eq_true] at hcontra
        exact hno d1 d2 rest2 rfl hcontra
      simp only [URIunescapeGo, eq_self_iff_true, if_true, if_neg hd]
  · intro maxlen inp isQuery h
    exact URIunescapeGo_none_char isQuery inp.length inp maxlen le_rfl h
  · intro maxlen inp isQuery hne hm
    constructor
    · intro h
      unfold URIunescapeRet at h
      rcases hres : URIunescape maxlen inp isQuery with _ | res
      · rfl
      · exfalso
        rcases inp with _ | ⟨c, rest⟩
        · exact hne rfl
        · rcases maxlen with _ | m
          · exact absurd hm (by simp)
          · have := URIunescapeGo_ne_nil isQuery c rest m res hres
            rw [hres] at h
            simp only at h
            exact this (List.length_eq_zero.mp h)
    · intro h
      unfold URIunescapeRet
      rw [h]

/-- C9 witness: the amended theorem applied at concrete inputs — `%2X` keeps
its `%` verbatim, and for input `A` with `maxlen = 1` the zero return and the
failure indicator coincide. -/
theorem URIunescape_verbatim_percent_nul_only_failure_witness :
    (URIunescapeGo false 3 ('%' :: s2l "2X") =
      (URIunescapeGo false 2 (s2l "2X")).map (fun l => '%' :: l)) ∧
    (URIunescapeRet 1 (s2l "A") false = 0 ↔ URIunescape 1 (s2l "A") false = none) := by
  constructor
  · refine URIunescape_verbatim_percent_nul_only_failure.1 false 2 (s2l "2X") ?_
    intro d1 d2 r2 h
    have : d2 = 'X' := by
      have h2 := congrArg (fun l => l.get? 1) h
      simpa [s2l] using h2.symm
    subst this
    rintro ⟨-, hX⟩
    exact absurd hX (by decide)
  · exact URIunescape_verbatim_percent_nul_only_failure.2.2 1 (s2l "A") false
      (by decide) (by decide)

/-- C10: URIunescape hard-truncates at `maxlen`: every successful decode has
length at most `maxlen`; with budget at least the input length the budget never
binds, and any smaller budget returns exactly the truncation of that full
decode with no error; hence at the DL parser's call sites (`maxlen =
MAX_AI_VALUE_LEN`) a value whose full decode exceeds MAX_AI_VALUE_LEN is
silently cut to MAX_AI_VALUE_LEN bytes, and the returned count is
MAX_AI_VALUE_LEN rather than an error. -/
theorem URIunescape_truncates_at_maxlen :
    (∀ (maxlen : Nat) (inp : List Char) (isQuery : Bool) res,
        URIunescape maxlen inp isQuery = some res → res.length ≤ maxlen) ∧
    (∀ (inp : List Char) (isQuery : Bool) full,
        URIunescape inp.length inp isQuery = some full →
        ∀ maxlen, URIunescape maxlen inp isQuery = some (full.take maxlen)) ∧
    (∀ (inp : List Char) (isQuery : Bool) full,
        URIunescape inp.length inp isQuery = some full →
        MAX_AI_VALUE_LEN < full.length →
        URIunescape MAX_AI_VALUE_LEN inp isQuery = some (full.take MAX_AI_VALUE_LEN) ∧
          URIunescapeRet MAX_AI_VALUE_LEN inp isQuery = MAX_AI_VALUE_LEN) := by
  refine ⟨?_, ?_, ?_⟩
  · intro maxlen inp isQuery res h
    exact URIunescapeGo_length_le isQuery inp.length inp maxlen res le_rfl h
  · intro inp isQuery full h maxlen
    exact URIunescapeGo_take isQuery inp.length inp inp.length full le_rfl le_rfl h maxlen
  · intro inp isQuery full h hlen
    have htake := URIunescapeGo_take isQuery inp.length inp inp.length full le_rfl le_rfl h
    have h90 : URIunescape MAX_AI_VALUE_LEN inp isQuery =
        some (full.take MAX_AI_VALUE_LEN) := htake MAX_AI_VALUE_LEN
    refine ⟨h90, ?_⟩
    unfold URIunescapeRet
    rw [h90]
    simp [List.length_take]
    omega

/-- C10 witness: a 91-character input decodes in full to 91 characters, and at
the call-site budget of 90 it is silently truncated to 90. -/
theorem URIunescape_truncates_at_maxlen_witness :
    URIunescape MAX_AI_VALUE_LEN (List.replicate 91 'A') false =
        some ((List.replicate 91 'A').take MAX_AI_VALUE_LEN) ∧
      URIunescapeRet MAX_AI_VALUE_LEN (List.replicate 91 'A') false = MAX_AI_VALUE_LEN :=
  URIunescape_truncates_at_maxlen.2.2 (List.replicate 91 'A') false
    (List.replicate 91 'A')
    (by set_option maxRecDepth 8000 in decide)
    (by simp [MAX_AI_VALUE_LEN])

/-! ### AI table data model (ai.h is not among the sources; the entry layout
follows the spec's data model and the field accesses visible in ai.c/dl.c). -/

/-- Character set tag of an AI component: numeric, CSET 82, CSET 39, CSET 64. -/
inductive Cset
  | N | X | Y | Z
deriving DecidableEq, Repr

/-- One component of an AI value schema: cset, min and max length, optionality
(`true` = OPT) and its additional linters, modelled as pure acceptors. -/
structure AIcomp where
  cset : Cset
  minLen : Nat
  maxLen : Nat
  opt : Bool
  linters : List (List Char → Bool)

/-- DL data-attribute class of an AI entry: `NO_DATA_ATTR`, `XX_DATA_ATTR`
(unknown), or permitted. -/
inductive DLattrKind
  | noAttr | xxAttr | yesAttr
deriving DecidableEq, Repr

/-- An AI table entry: code, FNC1 requirement, DL-attribute class, component
schema and the raw attribute string (`dlpkey…`, `ex=…`, `req=…`). -/
structure AIentry where
  ai : List Char
  fnc1 : Bool
  dlDataAttr : DLattrKind
  parts : List AIcomp
  attrs : List Char

/-- Modelled from the spec: the cset-82 character set of the linter library
(gs1syntaxdictionary, not among the sources): the 82 printable characters
admitted in general GS1 AI values. -/
def cset82chars : List Char :=
  s2l "!\"%&()*+,-./0123456789:;<=>?ABCDEFGHIJKLMNOPQRSTUVWXYZ_abcdefghijklmnopqrstuvwxyz"
    ++ [Char.ofNat 39]

/-- Modelled from the spec: the cset-82 character-set linter as a pure acceptor. -/
def gs1_lint_cset82 (v : List Char) : Bool := v.all (fun c => c ∈ cset82chars)

/-- Modelled from the spec: the numeric character-set linter. -/
def gs1_lint_csetnumeric (v : List Char) : Bool := v.all Char.isDigit

/-- Modelled from the spec: the cset-39 character-set linter (hash, dash,
slash, digits, upper case letters). -/
def gs1_lint_cset39 (v : List Char) : Bool :=
  v.all (fun c => c ∈ s2l "#-/0123456789ABCDEFGHIJKLMNOPQRSTUVWXYZ")

/-- Modelled from the spec: the cset-64 character-set linter (file-safe base64
alphabet with `=` padding). -/
def gs1_lint_cset64 (v : List Char) : Bool :=
  v.all (fun c =>
    c ∈ s2l "ABCDEFGHIJKLMNOPQRSTUVWXYZabcdefghijklmnopqrstuvwxyz0123456789-_=")

/-- `MIN_AI_LEN` (2) and `MAX_AI_LEN` (4): AI codes are 2–4 digits. -/
def MIN_AI_LEN : Nat := 2

/-- See `MIN_AI_LEN`. -/
def MAX_AI_LEN : Nat := 4

/-- Spec: at most `MAX_AIS` (16) parsed AIs. -/
def MAX_AIS : Nat := 16

/-- `gs1_allDigits(str, len)`: the first `len` bytes are all decimal digits.
A shorter C string fails because its NUL terminator is not a digit. -/
def gs1_allDigits (s : List Char) (n : Nat) : Bool :=
  decide (n ≤ s.length) && (s.take n).all Char.isDigit

/-- C `strcmp` on NUL-free byte strings. -/
def strcmpO : List Char → List Char → Ordering
  | [], [] => .eq
  | [], _ :: _ => .lt
  | _ :: _, [] => .gt
  | a :: as, b :: bs => if a = b then strcmpO as bs else (if a < b then .lt else .gt)

/-- C `strncmp` on NUL-free byte strings. -/
def strncmpO : List Char → List Char → Nat → Ordering
  | _, _, 0 => .eq
  | [], [], _ => .eq
  | [], _ :: _, _ => .lt
  | _ :: _, [], _ => .gt
  | a :: as, b :: bs, Nat.succ n => if a = b then strncmpO as bs n else (if a < b then .lt else .gt)

/-- The engine state fields used by the claims (subset of `struct gs1_encoder`
in enc-private.h). `aiLengthByPfx` is the derived `aiLengthByPrefix[100]`
table, `dlKeyQualifiers` the sorted key-qualifier association list. -/
structure Ctx where
  aiTable : List AIentry
  permitUnknownAIs : Bool
  permitZeroSuppressedGTINinDLuris : Bool
  vUnknownAInotDLattrEnabled : Bool
  aiLengthByPfx : List Nat
  dlKeyQualifiers : List (List Char)

/-- Two-digit AI prefix as an index 0–99 (`(ai[0]-'0')*10 + (ai[1]-'0')`). -/
def pfxNum (ai : List Char) : Nat :=
  ((ai.getD 0 NULc).toNat - 48) * 10 + ((ai.getD 1 NULc).toNat - 48)

/-- `populateAIlengthByPrefix` (ai.c): derive the prefix-length table, failing
when two AIs sharing a two-digit prefix have different code lengths. -/
def populateAIlengthByPfx : List AIentry → List Nat → Option (List Nat)
  | [], arr => some arr
  | e :: es, arr =>
    let p := pfxNum e.ai
    let len := e.ai.length
    if arr.getD p 0 ≠ 0 ∧ arr.getD p 0 ≠ len then none
    else populateAIlengthByPfx es (arr.set p len)

/-- `aiLengthByPrefix` accessor (ai.c). -/
def aiLengthByPfxOf (ctx : Ctx) (ai : List Char) : Nat :=
  ctx.aiLengthByPfx.getD (pfxNum ai) 0

/-- `fixedAIprefixLengths[100]` (ai.c): value lengths of AI prefixes that are
pre-defined as fixed-length; 0 (`VL`) marks variable length. -/
def fixedAIprefixLengths : List Nat :=
  [18, 14, 14, 14, 16, 0, 0, 0, 0, 0,
   0, 6, 6, 6, 6, 6, 6, 6, 6, 6,
   2, 0, 0, 0, 0, 0, 0, 0, 0, 0,
   0, 6, 6, 6, 6, 6, 6, 0, 0, 0,
   0, 13, 0, 0, 0, 0, 0, 0, 0, 0,
   0, 0, 0, 0, 0, 0, 0, 0, 0, 0,
   0, 0, 0, 0, 0, 0, 0, 0, 0, 0,
   0, 0, 0, 0, 0, 0, 0, 0, 0, 0,
   0, 0, 0, 0, 0, 0, 0, 0, 0, 0,
   0, 0, 0, 0, 0, 0, 0, 0, 0, 0]

/-- `valLengthByPrefix` (ai.c). -/
def valLengthByPfx (ai : List Char) : Nat :=
  fixedAIprefixLengths.getD (pfxNum ai) 0

/-- The pseudo entries used to vivify unknown AIs (ai.c). -/
def unknownAI : AIentry :=
  ⟨[], true, .xxAttr, [⟨.X, 1, 90, false, []⟩], []⟩

/-- See `unknownAI`. -/
def unknownAI2 : AIentry :=
  ⟨s2l "XX", true, .xxAttr, [⟨.X, 1, 90, false, []⟩], []⟩

/-- See `unknownAI`. -/
def unknownAI3 : AIentry :=
  ⟨s2l "XXX", true, .xxAttr, [⟨.X, 1, 90, false, []⟩], []⟩

/-- See `unknownAI`. -/
def unknownAI4 : AIentry :=
  ⟨s2l "XXXX", true, .xxAttr, [⟨.X, 1, 90, false, []⟩], []⟩

/-- See `unknownAI`. -/
def unknownAI2fixed2 : AIentry :=
  ⟨s2l "XX", false, .xxAttr, [⟨.X, 2, 2, false, []⟩], []⟩

/-- See `unknownAI`. -/
def unknownAI2fixed14 : AIentry :=
  ⟨s2l "XX", false, .xxAttr, [⟨.X, 14, 14, false, []⟩], []⟩

/-- See `unknownAI`. -/
def unknownAI2fixed16 : AIentry :=
  ⟨s2l "XX", false, .xxAttr, [⟨.X, 16, 16, false, []⟩], []⟩

/-- See `unknownAI`. -/
def unknownAI2fixed18 : AIentry :=
  ⟨s2l "XX", false, .xxAttr, [⟨.X, 18, 18, false, []⟩], []⟩

/-- See `unknownAI`. -/
def unknownAI3fixed13 : AIentry :=
  ⟨s2l "XXX", false, .xxAttr, [⟨.X, 13, 13, false, []⟩], []⟩

/-- See `unknownAI`. -/
def unknownAI4fixed6 : AIentry :=
  ⟨s2l "XXXX", false, .xxAttr, [⟨.X, 6, 6, false, []⟩], []⟩

/-- The binary-search loop of `gs1_lookupAIentry` (ai.c).  `some r` models an
early `return r` (with `r = none` for C's NULL), `none` models falling out of
the loop.  The fuel strictly exceeds the number of iterations whenever
`fuel ≥ e - s + 1`. -/
def lookupSearchGo (table : List AIentry) (ai : List Char) (ailen : Nat) :
    Nat → Nat → Nat → Option (Option AIentry)
  | 0, _, _ => some none
  | Nat.succ fuel, s, e =>
    if s < e then
      let m := s + (e - s) / 2
      let entry := table.getD m unknownAI
      let entrylen := entry.ai.length
      let cmp := strncmpO entry.ai ai entrylen
      if cmp = .eq then
        if ailen ≠ 0 ∧ entrylen ≠ ailen then some none else some (some entry)
      else if ailen ≠ 0 ∧ strncmpO ai entry.ai ailen = .eq then some none
      else if cmp = .lt then lookupSearchGo table ai ailen fuel (m + 1) e
      else lookupSearchGo table ai ailen fuel s m
    else none

/-- The vivification tail of `gs1_lookupAIentry` (ai.c), reached when the
binary search found nothing and `permitUnknownAIs` is set. -/
def lookupVivify (ctx : Ctx) (ai : List Char) (ailen : Nat) : Option AIentry :=
  let aiLen := aiLengthByPfxOf ctx ai
  if ailen ≠ 0 ∧ aiLen ≠ 0 ∧ aiLen ≠ ailen then none
  else if aiLen ≠ 0 ∧ ¬ gs1_allDigits ai aiLen then none
  else if aiLen = 2 then
    match valLengthByPfx ai with
    | 0 => some unknownAI2
    | 2 => some unknownAI2fixed2
    | 14 => some unknownAI2fixed14
    | 16 => some unknownAI2fixed16
    | 18 => some unknownAI2fixed18
    | _ => some unknownAI
  else if aiLen = 3 then
    match valLengthByPfx ai with
    | 0 => some unknownAI3
    | 13 => some unknownAI3fixed13
    | _ => some unknownAI
  else if aiLen = 4 then
    match valLengthByPfx ai with
    | 0 => some unknownAI4
    | 6 => some unknownAI4fixed6
    | _ => some unknownAI
  else some unknownAI

/-- `gs1_lookupAIentry(ctx, ai, ailen)` (ai.c): resolve an AI (exact when
`ailen ≠ 0`, by prefix when `ailen = 0`) to a table entry, vivifying unknown
AIs when permitted; `none` is C's NULL ("not found"). -/
def gs1_lookupAIentry (ctx : Ctx) (ai : List Char) (ailen : Nat) : Option AIentry :=
  if ailen ≠ 0 ∧ (ailen < MIN_AI_LEN ∨ ailen > MAX_AI_LEN) then none
  else if ¬ gs1_allDigits ai (if ailen ≠ 0 then ailen else MIN_AI_LEN) then none
  else
    match lookupSearchGo ctx.aiTable ai ailen (ctx.aiTable.length + 1) 0 ctx.aiTable.length with
    | some r => r
    | none => if ¬ ctx.permitUnknownAIs then none else lookupVivify ctx ai ailen

/-- A `strncmp` result of equality means the two byte strings agree on the
compared prefix. -/
theorem strncmpO_eq_take :
    ∀ (n : Nat) (a b : List Char), strncmpO a b n = .eq → a.take n = b.take n := by
  intro n
  induction n with
  | zero => intro a b _; simp
  | succ n ih =>
    rintro (_ | ⟨a, as⟩) (_ | ⟨b, bs⟩) h
    · simp
    · simp [strncmpO] at h
    · simp [strncmpO] at h
    · by_cases hab : a = b
      · subst hab
        simp only [strncmpO, if_pos rfl] at h
        simp [ih as bs h]
      · simp [strncmpO, if_neg hab] at h

/-- An early `return` of an entry from the binary-search loop returns a table
member whose code is a prefix of the probed data, of the requested length when
an exact length was requested. -/
theorem lookupSearchGo_found (table : List AIentry) (ai : List Char) (ailen : Nat) :
    ∀ (fuel s e : Nat) (r : AIentry), e ≤ table.length →
      lookupSearchGo table ai ailen fuel s e = some (some r) →
      ∃ m, m < table.length ∧ table.getD m unknownAI = r ∧
        strncmpO r.ai ai r.ai.length = .eq ∧ (ailen = 0 ∨ r.ai.length = ailen) := by
  intro fuel
  induction fuel with
  | zero =>
    intro s e r _ h
    simp [lookupSearchGo] at h
  | succ fuel ih =>
    intro s e r he h
    rw [lookupSearchGo] at h
    by_cases hse : s < e
    · simp only [if_pos hse] at h
      set m := s + (e - s) / 2 with hm
      set entry := table.getD m unknownAI with hentry
      by_cases hcmp : strncmpO entry.ai ai entry.ai.length = .eq
      · simp only [if_pos hcmp] at h
        by_cases hlen : ailen ≠ 0 ∧ entry.ai.length ≠ ailen
        · simp [if_pos hlen] at h
        · simp only [if_neg hlen] at h
          injection h with h
          injection h with h
          refine ⟨m, by omega, h ▸ rfl, h ▸ hcmp, ?_⟩
          push_neg at hlen
          by_cases hz : ailen = 0
          · exact Or.inl hz
          · exact Or.inr (h ▸ hlen hz)
      · simp only [if_neg hcmp] at h
        by_cases hpre : ailen ≠ 0 ∧ strncmpO ai entry.ai ailen = .eq
        · simp [if_pos hpre] at h
        · simp only [if_neg hpre] at h
          by_cases hlt : strncmpO entry.ai ai entry.ai.length = .lt
          · simp only [if_pos hlt] at h
            exact ih (m + 1) e r he h
          · simp only [if_neg hlt] at h
            exact ih s m r (by omega) h
    · simp [if_neg hse] at h

/-- `populateAIlengthByPrefix` never clears an already-assigned prefix length. -/
theorem populateAIlengthByPfx_preserve :
    ∀ (t : List AIentry) (arr res : List Nat), populateAIlengthByPfx t arr = some res →
      ∀ (p v : Nat), v ≠ 0 → arr.getD p 0 = v → res.getD p 0 = v := by
  intro t
  induction t with
  | nil =>
    intro arr res h p v _ harr
    rw [populateAIlengthByPfx] at h
    injection h with h
    rw [← h]; exact harr
  | cons e es ih =>
    intro arr res h p v hv harr
    rw [populateAIlengthByPfx] at h
    by_cases hg : arr.getD (pfxNum e.ai) 0 ≠ 0 ∧ arr.getD (pfxNum e.ai) 0 ≠ e.ai.length
    · rw [if_pos hg] at h; exact Option.noConfusion h
    · rw [if_neg hg] at h
      refine ih _ _ h p v hv ?_
      by_cases hpp : p = pfxNum e.ai
      · subst hpp
        push_neg at hg
        have hlen : arr.getD (pfxNum e.ai) 0 = e.ai.length := hg (by rw [harr]; exact hv)
        rw [List.getD_eq_getElem?_getD, List.getElem?_set_self']
        rw [List.getD_eq_getElem?_getD] at harr hlen
        rcases harr2 : arr[pfxNum e.ai]? with _ | w
        · rw [harr2] at harr; simp at harr; exact absurd harr.symm hv
        · rw [harr2] at harr hlen
          simp only [Option.getD_some] at harr hlen
          simp [harr ▸ hlen]
      · rw [List.getD_eq_getElem?_getD, List.getElem?_set_ne (fun hh => hpp hh.symm)]
        rw [List.getD_eq_getElem?_getD] at harr
        exact harr

/-- After a successful `populateAIlengthByPrefix`, every table entry's two-digit
prefix maps to that entry's code length. -/
theorem populateAIlengthByPfx_mem :
    ∀ (t : List AIentry) (arr res : List Nat), populateAIlengthByPfx t arr = some res →
      ∀ e, e ∈ t → e.ai.length ≠ 0 → pfxNum e.ai < arr.length →
        res.getD (pfxNum e.ai) 0 = e.ai.length := by
  intro t
  induction t with
  | nil => intro arr res _ e he; simp at he
  | cons e0 es ih =>
    intro arr res h e he hne hrange
    rw [populateAIlengthByPfx] at h
    by_cases hg : arr.getD (pfxNum e0.ai) 0 ≠ 0 ∧ arr.getD (pfxNum e0.ai) 0 ≠ e0.ai.length
    · rw [if_pos hg] at h; exact Option.noConfusion h
    · rw [if_neg hg] at h
      rcases List.mem_cons.mp he with rfl | hmem
      · refine populateAIlengthByPfx_preserve es _ res h (pfxNum e.ai) e.ai.length hne ?_
        rw [List.getD_eq_getElem?_getD, List.getElem?_set_self', List.getElem?_eq_getElem hrange]
        rfl
      · exact ih _ _ h e hmem hne (by rwa [List.length_set])

/-- Decimal digit bytes lie in 48–57. -/
theorem isDigit_toNat_bounds {c : Char} (h : c.isDigit = true) :
    48 ≤ c.toNat ∧ c.toNat ≤ 57 := by
  simp [Char.isDigit] at h
  exact h

/-- The two-digit prefix index of digit-led data is below 100. -/
theorem pfxNum_lt_100 {ai : List Char} (h : gs1_allDigits ai MIN_AI_LEN = true) :
    pfxNum ai < 100 := by
  rcases ai with _ | ⟨a, _ | ⟨b, rest⟩⟩
  · simp [gs1_allDigits, MIN_AI_LEN] at h
  · simp [gs1_allDigits, MIN_AI_LEN] at h
  · simp only [gs1_allDigits, MIN_AI_LEN, Bool.and_eq_true, decide_eq_true_eq,
      List.all_eq_true] at h
    have ha : a.isDigit = true := h.2 a (by simp [List.take])
    have hb : b.isDigit = true := h.2 b (by simp [List.take])
    have h1 := isDigit_toNat_bounds ha
    have h2 := isDigit_toNat_bounds hb
    simp only [pfxNum, List.getD_cons_zero, List.getD_cons_succ]
    omega

/-- Byte strings agreeing on their first `n ≥ 2` bytes have the same
two-digit prefix index. -/
theorem pfxNum_eq_of_take_eq {a b : List Char} {n : Nat} (hn : 2 ≤ n)
    (h : a.take n = b.take n) : pfxNum a = pfxNum b := by
  have h0 : a[0]? = b[0]? := by
    rw [← List.getElem?_take_of_lt (l := a) (show 0 < n by omega),
        ← List.getElem?_take_of_lt (l := b) (show 0 < n by omega), h]
  have h1 : a[1]? = b[1]? := by
    rw [← List.getElem?_take_of_lt (l := a) (show 1 < n by omega),
        ← List.getElem?_take_of_lt (l := b) (show 1 < n by omega), h]
  simp [pfxNum, List.getD_eq_getElem?_getD, h0, h1]

/-- First guard of `gs1_lookupAIentry`: a nonzero length outside 2–4 fails. -/
theorem gs1_lookupAIentry_guard1 (ctx : Ctx) (ai : List Char) (ailen : Nat)
    (h : ailen ≠ 0 ∧ (ailen < MIN_AI_LEN ∨ ailen > MAX_AI_LEN)) :
    gs1_lookupAIentry ctx ai ailen = none := by
  unfold gs1_lookupAIentry
  rw [if_pos h]

/-- Second guard of `gs1_lookupAIentry`: non-digit data fails. -/
theorem gs1_lookupAIentry_guard2 (ctx : Ctx) (ai : List Char) (ailen : Nat)
    (h1 : ¬(ailen ≠ 0 ∧ (ailen < MIN_AI_LEN ∨ ailen > MAX_AI_LEN)))
    (h : gs1_allDigits ai (if ailen ≠ 0 then ailen else MIN_AI_LEN) = false) :
    gs1_lookupAIentry ctx ai ailen = none := by
  unfold gs1_lookupAIentry
  rw [if_neg h1, if_pos (by simpa [ite_not] using h)]

/-- When both guards pass and the binary search falls through,
`gs1_lookupAIentry` reduces to the vivification tail. -/
theorem gs1_lookupAIentry_eq_vivify (ctx : Ctx) (ai : List Char) (ailen : Nat)
    (h1 : ¬(ailen ≠ 0 ∧ (ailen < MIN_AI_LEN ∨ ailen > MAX_AI_LEN)))
    (h2 : gs1_allDigits ai (if ailen ≠ 0 then ailen else MIN_AI_LEN) = true)
    (hmiss : lookupSearchGo ctx.aiTable ai ailen (ctx.aiTable.length + 1) 0
      ctx.aiTable.length = none)
    (hperm : ctx.permitUnknownAIs = true) :
    gs1_lookupAIentry ctx ai ailen = lookupVivify ctx ai ailen := by
  unfold gs1_lookupAIentry
  rw [if_neg h1, if_neg (by simpa [ite_not] using h2)]
  simp only [hmiss, hperm]
  simp

/-- When both guards pass and the binary search returns early,
`gs1_lookupAIentry` returns exactly that result. -/
theorem gs1_lookupAIentry_eq_search (ctx : Ctx) (ai : List Char) (ailen : Nat)
    (r : Option AIentry)
    (h1 : ¬(ailen ≠ 0 ∧ (ailen < MIN_AI_LEN ∨ ailen > MAX_AI_LEN)))
    (h2 : gs1_allDigits ai (if ailen ≠ 0 then ailen else MIN_AI_LEN) = true)
    (hs : lookupSearchGo ctx.aiTable ai ailen (ctx.aiTable.length + 1) 0
      ctx.aiTable.length = some r) :
    gs1_lookupAIentry ctx ai ailen = r := by
  unfold gs1_lookupAIentry
  rw [if_neg h1, if_neg (by simpa [ite_not] using h2)]
  simp only [hs]

/-- C6: `gs1_lookupAIentry(data, exactLen)` is "not found" whenever (i) a
nonzero `exactLen` lies outside `[MIN_AI_LEN, MAX_AI_LEN]`; (ii) the first
`max(exactLen, MIN_AI_LEN)` bytes of the data are not all digits; or (iii)
`exactLen` is nonzero and the data's first `exactLen` bytes equal a proper
prefix of some entry's code in a length-consistent dictionary — even with
`permitUnknownAIs` enabled, no unknown AI is vivified there. -/
theorem gs1_lookupAIentry_not_found_cases :
    (∀ (ctx : Ctx) (ai : List Char) (ailen : Nat), ailen ≠ 0 →
        (ailen < MIN_AI_LEN ∨ MAX_AI_LEN < ailen) →
        gs1_lookupAIentry ctx ai ailen = none) ∧
    (∀ (ctx : Ctx) (ai : List Char) (ailen : Nat),
        gs1_allDigits ai (max ailen MIN_AI_LEN) = false →
        gs1_lookupAIentry ctx ai ailen = none) ∧
    (∀ (ctx : Ctx) (ai : List Char) (ailen : Nat) (E : AIentry),
        populateAIlengthByPfx ctx.aiTable (List.replicate 100 0) = some ctx.aiLengthByPfx →
        (∀ e ∈ ctx.aiTable, MIN_AI_LEN ≤ e.ai.length ∧ gs1_allDigits e.ai MIN_AI_LEN = true) →
        E ∈ ctx.aiTable → ailen ≠ 0 → ailen < E.ai.length →
        E.ai.take ailen = ai.take ailen →
        gs1_lookupAIentry ctx ai ailen = none) := by
  refine ⟨?_, ?_, ?_⟩
  · intro ctx ai ailen hnz hout
    exact gs1_lookupAIentry_guard1 ctx ai ailen ⟨hnz, by omega⟩
  · intro ctx ai ailen hdig
    by_cases hg1 : ailen ≠ 0 ∧ (ailen < MIN_AI_LEN ∨ ailen > MAX_AI_LEN)
    · exact gs1_lookupAIentry_guard1 ctx ai ailen hg1
    · refine gs1_lookupAIentry_guard2 ctx ai ailen hg1 ?_
      rcases Nat.eq_zero_or_pos ailen with hz | hpos
      · subst hz
        simpa using hdig
      · have hle : MIN_AI_LEN ≤ ailen := by
          rcases Nat.lt_or_ge ailen MIN_AI_LEN with hlt | hge
          · exact absurd ⟨by omega, Or.inl hlt⟩ hg1
          · exact hge
        rw [if_pos (by omega)]
        rwa [Nat.max_eq_left hle] at hdig
  · intro ctx ai ailen E hpop htab hE hnz hlt htake
    obtain ⟨hElen, hEdig⟩ := htab E hE
    have hpfxE : pfxNum E.ai < 100 := pfxNum_lt_100 hEdig
    have hmemE : ctx.aiLengthByPfx.getD (pfxNum E.ai) 0 = E.ai.length :=
      populateAIlengthByPfx_mem _ _ _ hpop E hE (by simp [MIN_AI_LEN] at hElen; omega)
        (by simpa using hpfxE)
    by_cases hg1 : ailen ≠ 0 ∧ (ailen < MIN_AI_LEN ∨ ailen > MAX_AI_LEN)
    · exact gs1_lookupAIentry_guard1 ctx ai ailen hg1
    · have hrange : MIN_AI_LEN ≤ ailen ∧ ailen ≤ MAX_AI_LEN := by
        rcases Nat.lt_or_ge ailen MIN_AI_LEN with hlo | hge
        · exact absurd ⟨hnz, Or.inl hlo⟩ hg1
        · rcases Nat.lt_or_ge MAX_AI_LEN ailen with hhi | hle
          · exact absurd ⟨hnz, Or.inr hhi⟩ hg1
          · exact ⟨hge, hle⟩
      have hpfx_ai : pfxNum E.ai = pfxNum ai :=
        pfxNum_eq_of_take_eq (n := ailen) (by simp [MIN_AI_LEN] at hrange; omega) htake
      rcases hdig : gs1_allDigits ai (if ailen ≠ 0 then ailen else MIN_AI_LEN) with _ | _
      · exact gs1_lookupAIentry_guard2 ctx ai ailen hg1 hdig
      · rcases hsearch : lookupSearchGo ctx.aiTable ai ailen (ctx.aiTable.length + 1) 0
            ctx.aiTable.length with _ | r
        · by_cases hperm : ctx.permitUnknownAIs = true
          · rw [gs1_lookupAIentry_eq_vivify ctx ai ailen hg1 hdig hsearch hperm]
            unfold lookupVivify
            rw [if_pos ?_]
            refine ⟨hnz, ?_, ?_⟩
            · unfold aiLengthByPfxOf
              rw [← hpfx_ai, hmemE]
              simp [MIN_AI_LEN] at hElen
              omega
            · unfold aiLengthByPfxOf
              rw [← hpfx_ai, hmemE]
              omega
          · unfold gs1_lookupAIentry
            rw [if_neg hg1, if_neg (by simpa [ite_not] using hdig)]
            simp only [hsearch]
            simp [hperm]
        · rcases r with _ | r
          · exact gs1_lookupAIentry_eq_search ctx ai ailen none hg1 hdig hsearch
          · exfalso
            obtain ⟨m, hm, hgm, hcmp, hlen⟩ := lookupSearchGo_found ctx.aiTable ai ailen
              (ctx.aiTable.length + 1) 0 ctx.aiTable.length r le_rfl hsearch
            have hrmem : r ∈ ctx.aiTable := by
              rw [← hgm, List.getD_eq_getElem ctx.aiTable unknownAI hm]
              exact List.getElem_mem hm
            rcases hlen with h0 | hexact
            · exact hnz h0
            · have hr_eq : r.ai = ai.take ailen := by
                have h := strncmpO_eq_take r.ai.length r.ai ai hcmp
                rwa [List.take_length, hexact] at h
              obtain ⟨hrlen2, hrdig⟩ := htab r hrmem
              have hpfxr : pfxNum r.ai < 100 := pfxNum_lt_100 hrdig
              have hmemR : ctx.aiLengthByPfx.getD (pfxNum r.ai) 0 = r.ai.length :=
                populateAIlengthByPfx_mem _ _ _ hpop r hrmem
                  (by simp [MIN_AI_LEN] at hrlen2; omega) (by simpa using hpfxr)
              have hpfx_r_ai : pfxNum r.ai = pfxNum ai := by
                refine pfxNum_eq_of_take_eq (n := ailen)
                  (by simp [MIN_AI_LEN] at hrange; omega) ?_
                rw [hr_eq, List.take_take, Nat.min_self]
              have hlenr : r.ai.length = ailen := by
                rw [hr_eq, List.length_take]
                have : ailen ≤ ai.length := by
                  have := congrArg List.length htake
                  simp [List.length_take] at this
                  omega
                omega
              rw [hpfx_r_ai] at hmemR
              rw [hpfx_ai] at hmemE
              omega

/-- The (declared code length, fixed value length) pairs that the vivification
dispatch in `gs1_lookupAIentry` maps to a sized pseudo entry. -/
def vivifyHandled (l v : Nat) : Prop :=
  (l = 2 ∧ (v = 0 ∨ v = 2 ∨ v = 14 ∨ v = 16 ∨ v = 18)) ∨
  (l = 3 ∧ (v = 0 ∨ v = 13)) ∨
  (l = 4 ∧ (v = 0 ∨ v = 6))

/-- C7: with `permitUnknownAIs` enabled and a missed binary search, the lookup
vivifies a pseudo entry whose code length equals the length declared by
`lengthByPrefix`, with a single CSET82 component, and requiring FNC1 exactly
when `fixedValueLengthByPrefix` marks the prefix variable-length; a nonzero
`exactLen` that disagrees with a nonzero declared prefix length yields
"not found" instead. -/
theorem gs1_lookupAIentry_vivification :
    (∀ (ctx : Ctx) (ai : List Char) (ailen L v : Nat),
        ¬(ailen ≠ 0 ∧ (ailen < MIN_AI_LEN ∨ ailen > MAX_AI_LEN)) →
        gs1_allDigits ai (if ailen ≠ 0 then ailen else MIN_AI_LEN) = true →
        lookupSearchGo ctx.aiTable ai ailen (ctx.aiTable.length + 1) 0
          ctx.aiTable.length = none →
        ctx.permitUnknownAIs = true →
        aiLengthByPfxOf ctx ai = L → valLengthByPfx ai = v → vivifyHandled L v →
        (ailen = 0 ∨ ailen = L) → gs1_allDigits ai L = true →
        ∃ e, gs1_lookupAIentry ctx ai ailen = some e ∧
          e.ai.length = L ∧
          (∃ comp, e.parts = [comp] ∧ comp.cset = Cset.X) ∧
          (e.fnc1 = true ↔ v = 0)) ∧
    (∀ (ctx : Ctx) (ai : List Char) (ailen : Nat),
        lookupSearchGo ctx.aiTable ai ailen (ctx.aiTable.length + 1) 0
          ctx.aiTable.length = none →
        ailen ≠ 0 → aiLengthByPfxOf ctx ai ≠ 0 → aiLengthByPfxOf ctx ai ≠ ailen →
        gs1_lookupAIentry ctx ai ailen = none) := by
  constructor
  · intro ctx ai ailen L v hg1 hg2 hmiss hperm hL hv hhand hex hdigL
    rw [gs1_lookupAIentry_eq_vivify ctx ai ailen hg1 hg2 hmiss hperm]
    have hc1 : ¬(ailen ≠ 0 ∧ aiLengthByPfxOf ctx ai ≠ 0 ∧ aiLengthByPfxOf ctx ai ≠ ailen) := by
      rcases hex with rfl | rfl
      · simp
      · rintro ⟨-, -, hno⟩
        exact hno hL
    have hc2 : ¬(aiLengthByPfxOf ctx ai ≠ 0 ∧ ¬(gs1_allDigits ai (aiLengthByPfxOf ctx ai) = true)) := by
      rintro ⟨-, hno⟩
      rw [hL] at hno
      exact hno hdigL
    rcases hhand with ⟨rfl, hvs⟩ | ⟨rfl, hvs⟩ | ⟨rfl, hvs⟩
    · rcases hvs with rfl | rfl | rfl | rfl | rfl
      · exact ⟨unknownAI2, by simp [lookupVivify, hc1, hc2, hL, hv]; exact ⟨fun hnz => (hex.resolve_left hnz).symm, hdigL⟩, rfl,
          ⟨_, rfl, rfl⟩, by simp [unknownAI2]⟩
      · exact ⟨unknownAI2fixed2, by simp [lookupVivify, hc1, hc2, hL, hv]; exact ⟨fun hnz => (hex.resolve_left hnz).symm, hdigL⟩, rfl,
          ⟨_, rfl, rfl⟩, by simp [unknownAI2fixed2]⟩
      · exact ⟨unknownAI2fixed14, by simp [lookupVivify, hc1, hc2, hL, hv]; exact ⟨fun hnz => (hex.resolve_left hnz).symm, hdigL⟩, rfl,
          ⟨_, rfl, rfl⟩, by simp [unknownAI2fixed14]⟩
      · exact ⟨unknownAI2fixed16, by simp [lookupVivify, hc1, hc2, hL, hv]; exact ⟨fun hnz => (hex.resolve_left hnz).symm, hdigL⟩, rfl,
          ⟨_, rfl, rfl⟩, by simp [unknownAI2fixed16]⟩
      · exact ⟨unknownAI2fixed18, by simp [lookupVivify, hc1, hc2, hL, hv]; exact ⟨fun hnz => (hex.resolve_left hnz).symm, hdigL⟩, rfl,
          ⟨_, rfl, rfl⟩, by simp [unknownAI2fixed18]⟩
    · rcases hvs with rfl | rfl
      · exact ⟨unknownAI3, by simp [lookupVivify, hc1, hc2, hL, hv]; exact ⟨fun hnz => (hex.resolve_left hnz).symm, hdigL⟩, rfl,
          ⟨_, rfl, rfl⟩, by simp [unknownAI3]⟩
      · exact ⟨unknownAI3fixed13, by simp [lookupVivify, hc1, hc2, hL, hv]; exact ⟨fun hnz => (hex.resolve_left hnz).symm, hdigL⟩, rfl,
          ⟨_, rfl, rfl⟩, by simp [unknownAI3fixed13]⟩
    · rcases hvs with rfl | rfl
      · exact ⟨unknownAI4, by simp [lookupVivify, hc1, hc2, hL, hv]; exact ⟨fun hnz => (hex.resolve_left hnz).symm, hdigL⟩, rfl,
          ⟨_, rfl, rfl⟩, by simp [unknownAI4]⟩
      · exact ⟨unknownAI4fixed6, by simp [lookupVivify, hc1, hc2, hL, hv]; exact ⟨fun hnz => (hex.resolve_left hnz).symm, hdigL⟩, rfl,
          ⟨_, rfl, rfl⟩, by simp [unknownAI4fixed6]⟩
  · intro ctx ai ailen hmiss hnz hLnz hLne
    by_cases hg1 : ailen ≠ 0 ∧ (ailen < MIN_AI_LEN ∨ ailen > MAX_AI_LEN)
    · exact gs1_lookupAIentry_guard1 ctx ai ailen hg1
    · rcases hdig : gs1_allDigits ai (if ailen ≠ 0 then ailen else MIN_AI_LEN) with _ | _
      · exact gs1_lookupAIentry_guard2 ctx ai ailen hg1 hdig
      · by_cases hperm : ctx.permitUnknownAIs = true
        · rw [gs1_lookupAIentry_eq_vivify ctx ai ailen hg1 hdig hmiss hperm]
          simp only [lookupVivify]
          rw [if_pos ⟨hnz, hLnz, hLne⟩]
        · unfold gs1_lookupAIentry
          rw [if_neg hg1, if_neg (by simpa [ite_not] using hdig)]
          simp only [hmiss]
          simp [hperm]

/-- A one-entry table containing AI (410), used to witness vivification
behaviour against the prefix-length tables. -/
def e410 : AIentry := ⟨s2l "410", false, .yesAttr, [⟨.N, 13, 13, false, []⟩], []⟩

/-- Engine binding a table whose only AI is (410), with unknown AIs permitted. -/
def ctx41 : Ctx :=
  { aiTable := [e410], permitUnknownAIs := true,
    permitZeroSuppressedGTINinDLuris := false, vUnknownAInotDLattrEnabled := true,
    aiLengthByPfx := (List.replicate 100 0).set 41 3, dlKeyQualifiers := [] }

/-- C7 witness: against `ctx41`, `(419)` vivifies to the fixed-length
three-digit pseudo entry (no FNC1, value length 13 by prefix), while `(4199)`
is rejected because prefix 41 declares length 3. -/
theorem gs1_lookupAIentry_vivification_witness :
    (∃ e, gs1_lookupAIentry ctx41 (s2l "419") 3 = some e ∧
      e.ai.length = 3 ∧ (∃ comp, e.parts = [comp] ∧ comp.cset = Cset.X) ∧
      (e.fnc1 = true ↔ 13 = 0)) ∧
    gs1_lookupAIentry ctx41 (s2l "4199") 4 = none := by
  constructor
  · exact gs1_lookupAIentry_vivification.1 ctx41 (s2l "419") 3 3 13
      (by decide) (by decide) rfl rfl (by decide) (by decide)
      (Or.inr (Or.inl ⟨rfl, Or.inr rfl⟩)) (Or.inr rfl) (by decide)
  · exact gs1_lookupAIentry_vivification.2 ctx41 (s2l "4199") 4
      rfl (by decide) (by decide) (by decide)

/-- A one-entry table containing AI (8001), used to witness that codes that are
proper prefixes of known AIs are never vivified. -/
def e8001 : AIentry := ⟨s2l "8001", true, .yesAttr, [⟨.N, 14, 14, false, []⟩], []⟩

/-- Engine binding a table whose only AI is (8001), with unknown AIs permitted. -/
def ctx8001 : Ctx :=
  { aiTable := [e8001], permitUnknownAIs := true,
    permitZeroSuppressedGTINinDLuris := false, vUnknownAInotDLattrEnabled := true,
    aiLengthByPfx := (List.replicate 100 0).set 80 4, dlKeyQualifiers := [] }

/-- C6 witness: an exact length of 5 is out of range, non-digit data is not
found, and `(800)` — a proper prefix of the known `(8001)` — is not vivified
even though unknown AIs are permitted. -/
theorem gs1_lookupAIentry_not_found_cases_witness :
    gs1_lookupAIentry ctx8001 (s2l "12345") 5 = none ∧
    gs1_lookupAIentry ctx8001 (s2l "XX") 2 = none ∧
    gs1_lookupAIentry ctx8001 (s2l "800") 3 = none := by
  refine ⟨?_, ?_, ?_⟩
  · exact gs1_lookupAIentry_not_found_cases.1 ctx8001 (s2l "12345") 5
      (by decide) (by decide)
  · exact gs1_lookupAIentry_not_found_cases.2.1 ctx8001 (s2l "XX") 2 (by decide)
  · refine gs1_lookupAIentry_not_found_cases.2.2 ctx8001 (s2l "800") 3 e8001
      rfl ?_ (by simp [ctx8001]) (by decide) (by decide) rfl
    intro e he
    simp only [ctx8001, List.mem_singleton] at he
    subst he
    exact ⟨by decide, by decide⟩

/-! ### Element-string parsing and validation (ai.c) -/

/-- The engine error codes reached by the embedded operations (subset of the
public enumeration; `LOOP_LIMIT` is the out-of-fuel marker of the embedding,
unreachable for the inputs considered — the C loop would not terminate there). -/
inductive Err
  | URI_CONTAINS_ILLEGAL_CHARACTERS
  | URI_CONTAINS_ILLEGAL_SCHEME
  | URI_MISSING_DOMAIN_AND_PATH_INFO
  | DOMAIN_CONTAINS_ILLEGAL_CHARACTERS
  | NO_GS1_DL_KEYS_FOUND_IN_PATH_INFO
  | AI_VALUE_PATH_ELEMENT_IS_EMPTY
  | DECODED_AI_FROM_DL_PATH_INFO_CONTAINS_ILLEGAL_NULL
  | AI_VALUE_QUERY_ELEMENT_IN_EMPTY
  | DECODED_AI_VALUE_FROM_QUERY_PARAMS_CONTAINS_ILLEGAL_NULL
  | UNKNOWN_AI_IN_QUERY_PARAMS
  | INVALID_KEY_QUALIFIER_SEQUENCE
  | DUPLICATE_AI
  | AI_IS_NOT_VALID_DATA_ATTRIBUTE
  | AI_SHOULD_BE_IN_PATH_INFO
  | DL_URI_PARSE_FAILED
  | TOO_MANY_AIS
  | AI_UNRECOGNISED
  | AI_PARSE_FAILED
  | AI_VALUE_IS_TOO_SHORT
  | AI_VALUE_IS_TOO_LONG
  | AI_CONTAINS_ILLEGAL_CARAT_CHARACTER
  | MISSING_FNC1_IN_FIRST_POSITION
  | AI_DATA_EMPTY
  | NO_AI_FOR_PFX
  | AI_DATA_IS_TOO_LONG
  | AI_DATA_IS_EMPTY
  | AI_DATA_HAS_INCORRECT_LENGTH
  | AI_LINTER_ERROR
  | REQUIRED_AIS_NOT_SATISFIED
  | INVALID_AI_PAIRS
  | INSTANCES_OF_AI_HAVE_DIFFERENT_VALUES
  | SERIAL_NOT_PRESENT
  | CANNOT_CREATE_DL_URI_WITHOUT_PRIMARY_KEY_AI
  | LOOP_LIMIT
deriving DecidableEq, Repr

/-- Kind of a parsed AI value: a real AI (`aiValue_aival`) or a preserved
non-AI query parameter (`alValue_dlign`). -/
inductive AIkind
  | aival | dlign
deriving DecidableEq, Repr

/-- Modelled from the spec: `DL_PATH_ORDER_ATTRIBUTE`, the sentinel path order
marking an AI as a query attribute; any value distinguishable from the 0-based
path ordinals serves. -/
def DL_PATH_ORDER_ATTRIBUTE : Nat := 255

/-- A parsed AI (`struct aiValue`): kind, table entry, AI bytes and value bytes
(modelling the `ai`/`ailen` and `value`/`vallen` spans into the canonical
buffer), and the DL path order. -/
structure AIvalue where
  kind : AIkind
  aiEntry : Option AIentry
  ai : List Char
  value : List Char
  dlPathOrder : Nat

/-- `aiEntryMinLength` (ai.c): sum of the mandatory components' minima. -/
def aiEntryMinLength (e : AIentry) : Nat :=
  e.parts.foldl (fun l p => l + (if p.opt then 0 else p.minLen)) 0

/-- `aiEntryMaxLength` (ai.c): sum of the components' maxima. -/
def aiEntryMaxLength (e : AIentry) : Nat :=
  e.parts.foldl (fun l p => l + p.maxLen) 0

/-- `gs1_aiValLengthContentCheck` (ai.c): overall length window and the ban on
`^` inside values; `none` is success. -/
def gs1_aiValLengthContentCheck (entry : AIentry) (aiVal : List Char) : Option Err :=
  if aiVal.length < aiEntryMinLength entry then some .AI_VALUE_IS_TOO_SHORT
  else if aiVal.length > aiEntryMaxLength entry then some .AI_VALUE_IS_TOO_LONG
  else if '^' ∈ aiVal then some .AI_CONTAINS_ILLEGAL_CARAT_CHARACTER
  else none

/-- The character-set linter selected by a component's cset tag (ai.c switch). -/
def csetLinter : Cset → (List Char → Bool)
  | .N => gs1_lint_csetnumeric
  | .X => gs1_lint_cset82
  | .Y => gs1_lint_cset39
  | .Z => gs1_lint_cset64

/-- Component loop of `validate_ai_val` (ai.c): each component takes up to its
max length from the remainder, optional empty components are skipped, short
components fail, and the cset linter then the additional linters run; returns
the number of bytes validation consumed. -/
def validate_ai_val_parts : List AIcomp → List Char → Except Err Nat
  | [], _ => .ok 0
  | part :: parts, rest =>
    let complen := min rest.length part.maxLen
    let compval := rest.take complen
    if part.opt ∧ complen = 0 then validate_ai_val_parts parts rest
    else if complen < part.minLen then .error .AI_DATA_HAS_INCORRECT_LENGTH
    else if ¬ csetLinter part.cset compval then .error .AI_LINTER_ERROR
    else if ¬ part.linters.all (fun l => l compval) then .error .AI_LINTER_ERROR
    else (validate_ai_val_parts parts (rest.drop complen)).map (fun n => complen + n)

/-- `validate_ai_val` (ai.c): empty values are rejected, then the components
are validated against the value. -/
def validate_ai_val (entry : AIentry) (val : List Char) : Except Err Nat :=
  if val = [] then .error .AI_DATA_IS_EMPTY
  else validate_ai_val_parts entry.parts val

/-- Loop of `gs1_processAIdata` (ai.c): starting after the leading FNC1,
resolve each AI by prefix, validate its value up to the next `^` or the end,
extract it when requested, and enforce the FNC1 separation discipline.  The
pointer-identity test `entry == &unknownAI` is modelled by the generic pseudo
entry's unique empty code. -/
def gs1_processAIdata_go (ctx : Ctx) (extract : Bool) :
    Nat → List Char → List AIvalue → Option Err × List AIvalue
  | _, [], acc => (none, acc)
  | 0, _ :: _, acc => (some .LOOP_LIMIT, acc)
  | Nat.succ fuel, p, acc =>
    match gs1_lookupAIentry ctx p 0 with
    | none => (some .NO_AI_FOR_PFX, acc)
    | some entry =>
      if extract ∧ entry.ai = [] then (some .NO_AI_FOR_PFX, acc)
      else
        let ailen := entry.ai.length
        let aiBytes := p.take ailen
        let rest1 := p.drop ailen
        let valRegion := rest1.takeWhile (fun c => c ≠ '^')
        match validate_ai_val entry valRegion with
        | .error e => (some e, acc)
        | .ok vallen =>
          if extract ∧ MAX_AIS ≤ acc.length then (some .TOO_MANY_AIS, acc)
          else
            let acc1 := if extract then
              acc ++ [⟨.aival, some entry, aiBytes, rest1.take vallen,
                DL_PATH_ORDER_ATTRIBUTE⟩]
              else acc
            let rest2 := rest1.drop vallen
            if entry.fnc1 ∧ rest2 ≠ [] ∧ rest2.head? ≠ some '^' then
              (some .AI_DATA_IS_TOO_LONG, acc1)
            else
              let rest3 := if rest2.head? = some '^' then rest2.drop 1 else rest2
              gs1_processAIdata_go ctx extract fuel rest3 acc1

/-- `gs1_processAIdata(ctx, dataStr, extractAIs)` (ai.c): validate a regular
`^…` AI data string, optionally extracting the AIs onto the engine's list. -/
def gs1_processAIdata (ctx : Ctx) (dataStr : List Char) (extract : Bool)
    (acc : List AIvalue) : Option Err × List AIvalue :=
  match dataStr with
  | [] => (some .MISSING_FNC1_IN_FIRST_POSITION, acc)
  | c :: rest =>
    if c ≠ '^' then (some .MISSING_FNC1_IN_FIRST_POSITION, acc)
    else if rest = [] then (some .AI_DATA_EMPTY, acc)
    else gs1_processAIdata_go ctx extract (rest.length + 1) rest acc

/-- Value scan of `gs1_parseAIdata` (ai.c): the value extends to the next
unescaped `(`; the two-byte sequence backslash-`(` stands for a literal `(`.
Returns the written value bytes and the remaining input. -/
def parseAIvalue_scan : Nat → List Char → List Char × List Char
  | 0, s => ([], s)
  | Nat.succ fuel, s =>
    let seg := s.takeWhile (fun c => c ≠ '(')
    let rest := s.drop seg.length
    match rest with
    | [] => (seg, [])
    | _ :: rest2 =>
      if seg ≠ [] ∧ seg.getLast? = some '\\' then
        let vr := parseAIvalue_scan fuel rest2
        (seg.dropLast ++ '(' :: vr.1, vr.2)
      else (seg, rest)

/-- Result of the lexing phase of `gs1_parseAIdata`: error (if any), the
canonical bytes written to `dataStr` so far, and the AI list including the
entries appended before any failure. -/
structure LexResult where
  err : Option Err
  dataStr : List Char
  newAIs : List AIvalue

/-- Lexing loop of `gs1_parseAIdata` (ai.c): repeatedly read `(AI)value`,
resolve the AI, emit `^` where FNC1 separation is required, write the AI and
its (escape-processed) value to the canonical buffer, length/content check it
and append it to the AI list. -/
def gs1_parseAIdata_go (ctx : Ctx) :
    Nat → List Char → Bool → List Char → List AIvalue → LexResult
  | _, [], _, dataStr, acc => ⟨none, dataStr, acc⟩
  | 0, _ :: _, _, dataStr, acc => ⟨some .LOOP_LIMIT, dataStr, acc⟩
  | Nat.succ fuel, c :: rest, fnc1req, dataStr, acc =>
    if c ≠ '(' then ⟨some .AI_PARSE_FAILED, dataStr, acc⟩
    else
      let aiStr := rest.takeWhile (fun ch => ch ≠ ')')
      if aiStr.length = rest.length then ⟨some .AI_PARSE_FAILED, dataStr, acc⟩
      else
        let ailen := aiStr.length
        match gs1_lookupAIentry ctx rest ailen with
        | none => ⟨some .AI_UNRECOGNISED, dataStr, acc⟩
        | some entry =>
          let ds1 := dataStr ++ (if fnc1req then ['^'] else []) ++ aiStr
          let vrest := rest.drop (ailen + 1)
          if vrest = [] then ⟨some .AI_PARSE_FAILED, ds1, acc⟩
          else
            let vr := parseAIvalue_scan (vrest.length + 1) vrest
            let value := vr.1
            let ds2 := ds1 ++ value
            match gs1_aiValLengthContentCheck entry value with
            | some e => ⟨some e, ds2, acc⟩
            | none =>
              if MAX_AIS ≤ acc.length then ⟨some .TOO_MANY_AIS, ds2, acc⟩
              else
                gs1_parseAIdata_go ctx fuel vr.2 entry.fnc1 ds2
                  (acc ++ [⟨.aival, some entry, aiStr, value, DL_PATH_ORDER_ATTRIBUTE⟩])

/-- Result of a parse operation: C return value, engine error, the canonical
buffer handed back in `dataStr`, and the engine's AI list. -/
structure ParseAIResult where
  ok : Bool
  err : Option Err
  dataStr : List Char
  aiData : List AIvalue

/-- `gs1_parseAIdata(ctx, aiData, dataStr)` (ai.c): lex the bracketed string
into the canonical buffer (clearing it on a lexing failure, the `fail` label),
then validate the written data with `gs1_processAIdata`; validation failures
return through the ordinary return path and leave the buffer as written.  The
engine AI list (`acc`) is appended to and never reset here. -/
def gs1_parseAIdata (ctx : Ctx) (acc : List AIvalue) (aiData : List Char) : ParseAIResult :=
  let lex := gs1_parseAIdata_go ctx (aiData.length + 1) aiData true [] acc
  match lex.err with
  | some e => ⟨false, some e, [], lex.newAIs⟩
  | none =>
    match gs1_processAIdata ctx lex.dataStr false lex.newAIs with
    | (some e, ais) => ⟨false, some e, lex.dataStr, ais⟩
    | (none, ais) => ⟨true, none, lex.dataStr, ais⟩

/-! ### GS1 Digital Link URI parsing (dl.c).  The caller's buffer is a
`List Char`; the in-place writes of the C parser (`*fr++ = 0`, `*qp++ = 0` and
the pokes of the right-to-left scan) are `List.set` operations, and C string
reads stop at the first NUL byte. -/

/-- `uriCharacters` (dl.c): characters permissible in URIs (same set; the
apostrophe is appended separately). -/
def uriCharacters : List Char :=
  s2l "ABCDEFGHIJKLMNOPQRSTUVWXYZabcdefghijklmnopqrstuvwxyz0123456789-._~:/?#[]@!$&()*+,;=%"
    ++ [Char.ofNat 39]

/-- `uriUnreservedCharacters` (dl.c): characters needing no escape in URI
components. -/
def uriUnreservedCharacters : List Char :=
  s2l "ABCDEFGHIJKLMNOPQRSTUVWXYZabcdefghijklmnopqrstuvwxyz0123456789-._~"

/-- `badDomainCharacters` (dl.c): characters illegal inside the domain. -/
def badDomainCharacters : List Char :=
  s2l "_~?#@!$&()*+,;=%" ++ [Char.ofNat 39]

/-- The C string starting at byte `i` of the buffer: bytes up to the first NUL. -/
def cstrView (buf : List Char) (i : Nat) : List Char :=
  (buf.drop i).takeWhile (fun c => c ≠ NULc)

/-- `strchr` from byte `i`: absolute index of the first `c` before the NUL. -/
def cstrchr (buf : List Char) (i : Nat) (c : Char) : Option Nat :=
  ((cstrView buf i).indexOf? c).map (fun j => i + j)

/-- Index of the last occurrence of `c` in a byte list. -/
def lastIdxOf : List Char → Char → Option Nat
  | [], _ => none
  | a :: as, c =>
    match lastIdxOf as c with
    | some j => some (j + 1)
    | none => if a = c then some 0 else none

/-- `strrchr` from byte `i`: absolute index of the last `c` before the NUL. -/
def cstrrchr (buf : List Char) (i : Nat) (c : Char) : Option Nat :=
  (lastIdxOf (cstrView buf i) c).map (fun j => i + j)

/-- Binary search of `getDLpathAIseqEntry` (dl.c) over the sorted
key-qualifier strings. -/
def dlKQsearchGo (lst : List (List Char)) (target : List Char) :
    Nat → Nat → Nat → Option Nat
  | 0, _, _ => none
  | Nat.succ fuel, s, e =>
    if s < e then
      let m := s + (e - s) / 2
      match strcmpO (lst.getD m []) target with
      | .eq => some m
      | .lt => dlKQsearchGo lst target fuel (m + 1) e
      | .gt => dlKQsearchGo lst target fuel s m
    else none

/-- `getDLpathAIseqEntry` (dl.c): position of the space-joined AI sequence in
the key-qualifier list, `none` for C's -1. -/
def getDLpathAIseqEntry (ctx : Ctx) (seq : List (List Char)) : Option Nat :=
  dlKQsearchGo ctx.dlKeyQualifiers (List.intercalate [' '] seq)
    (ctx.dlKeyQualifiers.length + 1) 0 ctx.dlKeyQualifiers.length

/-- `isValidDLpathAIseq` (dl.c). -/
def isValidDLpathAIseq (ctx : Ctx) (seq : List (List Char)) : Bool :=
  (getDLpathAIseqEntry ctx seq).isSome

/-- `isDLpkey` (dl.c). -/
def isDLpkey (ctx : Ctx) (ai : List Char) : Bool :=
  (getDLpathAIseqEntry ctx [ai]).isSome

/-- Scheme recognition of `gs1_parseDLuri` (dl.c): http/https in all-lower or
all-upper case; returns the byte offset past `://`. -/
def dlSchemeLen (s : List Char) : Option Nat :=
  if (s2l "https://").isPrefixOf s then some 8
  else if (s2l "HTTPS://").isPrefixOf s then some 8
  else if (s2l "http://").isPrefixOf s then some 7
  else if (s2l "HTTP://").isPrefixOf s then some 7
  else none

/-- The right-to-left path scan of `gs1_parseDLuri` (dl.c lines 425–453):
starting from the end of the path info, look for the rightmost `/AI/value`
pair whose AI is a DL primary key.  The loop temporarily chops the buffer with
NUL bytes; the loop condition is evaluated on the still-chopped buffer, and on
normal exit the last chop at the start of the path info is left in place. -/
def dlScanLoop (ctx : Ctx) (piIdx : Nat) :
    Nat → List Char → Nat → Option Nat × List Char
  | 0, buf, _ => (none, buf)
  | Nat.succ fuel, buf, pIdx =>
    match cstrrchr buf piIdx '/' with
    | none => (none, buf)
    | some r =>
      let buf1 := buf.set pIdx '/'
      let buf2 := buf1.set r NULc
      let pOpt := cstrrchr buf2 piIdx '/'
      let buf3 := buf2.set r '/'
      match pOpt with
      | none => (none, buf3)
      | some p =>
        match gs1_lookupAIentry ctx (cstrView buf3 (p + 1)) (r - p - 1) with
        | none => (none, buf3)
        | some entry =>
          if isDLpkey ctx entry.ai then (some p, buf3)
          else dlScanLoop ctx piIdx fuel (buf3.set p NULc) p

/-- The net effect of the in-place GTIN zero-padding loop of `gs1_parseDLuri`
(`for (i = 0; i <= 13; i++) aival[13-i] = vallen >= i+1 ? aival[vallen-i-1] : '0'`):
left-pad the 8/12/13-digit value with zeros to 14 bytes. -/
def gtinPad14 (val : List Char) : List Char :=
  List.replicate (14 - val.length) '0' ++ val

/-- Per-value handling of a DL path pair (dl.c lines 499–523): the
flag-gated legacy GTIN padding for AI (01) values of 8/12/13 digits, followed
by the parse-time length/content check. -/
def processDLpathAIvalue (ctx : Ctx) (entry : AIentry) (uval : List Char) :
    Except Err (List Char) :=
  let aival :=
    if ctx.permitZeroSuppressedGTINinDLuris ∧ entry.ai = s2l "01" ∧
        (uval.length = 13 ∨ uval.length = 12 ∨ uval.length = 8) then
      gtinPad14 uval
    else uval
  match gs1_aiValLengthContentCheck entry aival with
  | some e => .error e
  | none => .ok aival

/-- Per-value handling of a DL query attribute (dl.c lines 601–625): the GTIN
padding for AI (01) applies unconditionally here, then the length/content
check runs. -/
def processDLqueryAIvalue (entry : AIentry) (uval : List Char) :
    Except Err (List Char) :=
  let aival :=
    if entry.ai = s2l "01" ∧
        (uval.length = 13 ∨ uval.length = 12 ∨ uval.length = 8) then
      gtinPad14 uval
    else uval
  match gs1_aiValLengthContentCheck entry aival with
  | some e => .error e
  | none => .ok aival

/-- Path-pair processing loop of `gs1_parseDLuri` (dl.c lines 464–544): walk
`/AI/value` pairs from the DL path root, percent-decoding each value with path
rules, applying the flag-gated GTIN padding, writing FNC1/AI/value to the
canonical buffer and recording each AI with its 0-based path order.
Returns (error?, fnc1req, dataStr, aiData, pathAIseq). -/
def dlPathPairsLoop (ctx : Ctx) :
    Nat → List Char → Bool → List Char → List AIvalue → List (List Char) →
      Option Err × Bool × List Char × List AIvalue × List (List Char)
  | 0, _, fnc1req, dataStr, acc, seq => (some .LOOP_LIMIT, fnc1req, dataStr, acc, seq)
  | Nat.succ fuel, p, fnc1req, dataStr, acc, seq =>
    match p with
    | [] => (none, fnc1req, dataStr, acc, seq)
    | c :: p1 =>
      if c ≠ '/' then (some .LOOP_LIMIT, fnc1req, dataStr, acc, seq)
      else
        let aiStr := p1.takeWhile (fun ch => ch ≠ '/')
        if aiStr.length = p1.length then (some .LOOP_LIMIT, fnc1req, dataStr, acc, seq)
        else
          let ailen := aiStr.length
          match gs1_lookupAIentry ctx p1 ailen with
          | none => (some .LOOP_LIMIT, fnc1req, dataStr, acc, seq)
          | some entry =>
            let rawVal := (p1.drop (ailen + 1)).takeWhile (fun ch => ch ≠ '/')
            if rawVal = [] then
              (some .AI_VALUE_PATH_ELEMENT_IS_EMPTY, fnc1req, dataStr, acc, seq)
            else
              match URIunescape MAX_AI_VALUE_LEN rawVal false with
              | none =>
                (some .DECODED_AI_FROM_DL_PATH_INFO_CONTAINS_ILLEGAL_NULL,
                  fnc1req, dataStr, acc, seq)
              | some uval =>
                match processDLpathAIvalue ctx entry uval with
                | .error e => (some e, entry.fnc1, dataStr, acc, seq)
                | .ok aival =>
                  let ds1 := dataStr ++ (if fnc1req then ['^'] else []) ++ aiStr ++ aival
                  if MAX_AIS ≤ acc.length then
                    (some .TOO_MANY_AIS, entry.fnc1, ds1, acc, seq)
                  else
                    dlPathPairsLoop ctx fuel (p1.drop (ailen + 1 + rawVal.length))
                      entry.fnc1 ds1
                      (acc ++ [⟨.aival, some entry, aiStr, aival, seq.length⟩])
                      (seq ++ [entry.ai])

/-- Query-parameter loop of `gs1_parseDLuri` (dl.c lines 551–648): split on
`&`, preserve segments without `=` (and non-digit keys) as "dl-ignored"
entries, reject numeric keys that are not AIs, percent-decode values with
query rules (`+` is SPACE), apply the unconditional GTIN padding, write to the
canonical buffer and record attributes with the sentinel path order. -/
def dlQueryLoop (ctx : Ctx) :
    Nat → List Char → Bool → List Char → List AIvalue →
      Option Err × Bool × List Char × List AIvalue
  | 0, _, fnc1req, dataStr, acc => (some .LOOP_LIMIT, fnc1req, dataStr, acc)
  | Nat.succ fuel, q, fnc1req, dataStr, acc =>
    match q with
    | [] => (none, fnc1req, dataStr, acc)
    | _ :: _ =>
      let q1 := q.dropWhile (fun ch => ch = '&')
      let seg := q1.takeWhile (fun ch => ch ≠ '&')
      let rest := q1.drop seg.length
      if '=' ∉ seg then
        dlQueryLoop ctx fuel rest fnc1req dataStr
          (acc ++ [⟨.dlign, none, [], seg, DL_PATH_ORDER_ATTRIBUTE⟩])
      else
        let ai := seg.takeWhile (fun ch => ch ≠ '=')
        let ailen := ai.length
        let entry? := gs1_lookupAIentry ctx q1 ailen
        if gs1_allDigits ai ailen ∧ entry?.isNone then
          (some .UNKNOWN_AI_IN_QUERY_PARAMS, fnc1req, dataStr, acc)
        else
          match entry? with
          | none =>
            dlQueryLoop ctx fuel rest fnc1req dataStr
              (acc ++ [⟨.dlign, none, [], seg, DL_PATH_ORDER_ATTRIBUTE⟩])
          | some entry =>
            let rawVal := seg.drop (ailen + 1)
            if rawVal = [] then
              (some .AI_VALUE_QUERY_ELEMENT_IN_EMPTY, fnc1req, dataStr, acc)
            else
              match URIunescape MAX_AI_VALUE_LEN rawVal true with
              | none =>
                (some .DECODED_AI_VALUE_FROM_QUERY_PARAMS_CONTAINS_ILLEGAL_NULL,
                  fnc1req, dataStr, acc)
              | some uval =>
                match processDLqueryAIvalue entry uval with
                | .error e => (some e, entry.fnc1, dataStr, acc)
                | .ok aival =>
                  let ds1 := dataStr ++ (if fnc1req then ['^'] else []) ++ ai ++ aival
                  if MAX_AIS ≤ acc.length then
                    (some .TOO_MANY_AIS, entry.fnc1, ds1, acc)
                  else
                    dlQueryLoop ctx fuel rest entry.fnc1 ds1
                      (acc ++ [⟨.aival, some entry, ai, aival, DL_PATH_ORDER_ATTRIBUTE⟩])

/-- Attribute validation of `gs1_parseDLuri` (dl.c lines 667–718): for each
query-attribute AI, forbid duplicates of any earlier parsed AI, require a
permitted DL data-attribute class, and reject AIs whose insertion anywhere
into the path sequence would form a valid key-qualifier sequence. -/
def validateDLattrsGo (ctx : Ctx) (pathSeq : List (List Char)) :
    List AIvalue → List AIvalue → Option Err
  | _, [] => none
  | prev, a :: rest =>
    if a.kind ≠ .aival ∨ a.dlPathOrder ≠ DL_PATH_ORDER_ATTRIBUTE then
      validateDLattrsGo ctx pathSeq (prev ++ [a]) rest
    else if prev.any (fun a2 => a2.kind = .aival ∧ a2.ai = a.ai) then
      some .DUPLICATE_AI
    else
      match a.aiEntry with
      | none => validateDLattrsGo ctx pathSeq (prev ++ [a]) rest
      | some e =>
        if e.dlDataAttr = .noAttr ∨
            (e.dlDataAttr = .xxAttr ∧ ctx.vUnknownAInotDLattrEnabled) then
          some .AI_IS_NOT_VALID_DATA_ATTRIBUTE
        else if (List.range' 1 pathSeq.length).any
            (fun j => (getDLpathAIseqEntry ctx
              (pathSeq.take j ++ [e.ai] ++ pathSeq.drop j)).isSome) then
          some .AI_SHOULD_BE_IN_PATH_INFO
        else validateDLattrsGo ctx pathSeq (prev ++ [a]) rest

/-- See `validateDLattrsGo`; the whole block is skipped when the path already
holds `MAX_AIS` AIs. -/
def validateDLattrs (ctx : Ctx) (pathSeq : List (List Char))
    (ais : List AIvalue) : Option Err :=
  if pathSeq.length < MAX_AIS then validateDLattrsGo ctx pathSeq [] ais else none

/-- Result of `gs1_parseDLuri`: C return value, engine error, the canonical
buffer (`dataStr` output argument), the engine AI list, and the final contents
of the caller's `dlData` buffer. -/
structure DLParseResult where
  ok : Bool
  err : Option Err
  dataStr : List Char
  aiData : List AIvalue
  buf : List Char

/-- Restoration of the `?` and `#` bytes at the `out` label of
`gs1_parseDLuri`. -/
def dlRestoreQF (buf : List Char) (qpIdx frIdx : Option Nat) : List Char :=
  let b1 := match qpIdx with | some k => buf.set k '?' | none => buf
  match frIdx with | some k => b1.set k '#' | none => b1

/-- `gs1_parseDLuri(ctx, dlData, dataStr)` (dl.c): parse a GS1 DL URI into a
regular `^…` AI string, extracting the AIs.  Mirrors the C control flow: the
`fail` label clears `dataStr`; the post-extraction validations return through
`out` without clearing it; `out` restores the `?`/`#` bytes. -/
def gs1_parseDLuri (ctx : Ctx) (dlData : List Char) : DLParseResult :=
  if ¬ dlData.all (fun c => c ∈ uriCharacters) then
    ⟨false, some .URI_CONTAINS_ILLEGAL_CHARACTERS, [], [], dlData⟩
  else
    match dlSchemeLen dlData with
    | none => ⟨false, some .URI_CONTAINS_ILLEGAL_SCHEME, [], [], dlData⟩
    | some off =>
      match cstrchr dlData off '/' with
      | none => ⟨false, some .URI_MISSING_DOMAIN_AND_PATH_INFO, [], [], dlData⟩
      | some r =>
        if r = off then ⟨false, some .URI_MISSING_DOMAIN_AND_PATH_INFO, [], [], dlData⟩
        else if ((dlData.drop off).take (r - off)).any
            (fun c => c ∈ badDomainCharacters) then
          ⟨false, some .DOMAIN_CONTAINS_ILLEGAL_CHARACTERS, [], [], dlData⟩
        else
          let piIdx := r
          let frIdx := cstrchr dlData piIdx '#'
          let buf1 := match frIdx with | some k => dlData.set k NULc | none => dlData
          let qpIdx := cstrchr buf1 piIdx '?'
          let buf2 := match qpIdx with | some k => buf1.set k NULc | none => buf1
          let scan := dlScanLoop ctx piIdx (buf2.length + 1) buf2 piIdx
          match scan.1 with
          | none =>
            ⟨false, some .NO_GS1_DL_KEYS_FOUND_IN_PATH_INFO, [], [],
              dlRestoreQF scan.2 qpIdx frIdx⟩
          | some dp =>
            let B := scan.2
            let pathStr := cstrView B dp
            let pres := dlPathPairsLoop ctx (pathStr.length + 1) pathStr true [] [] []
            match pres.1 with
            | some e => ⟨false, some e, [], pres.2.2.2.1, dlRestoreQF B qpIdx frIdx⟩
            | none =>
              let pathSeq := pres.2.2.2.2
              let qStr := match qpIdx with | some k => cstrView B (k + 1) | none => []
              let qres := dlQueryLoop ctx (qStr.length + 1) qStr pres.2.1
                pres.2.2.1 pres.2.2.2.1
              match qres.1 with
              | some e => ⟨false, some e, [], qres.2.2.2, dlRestoreQF B qpIdx frIdx⟩
              | none =>
                let ds := qres.2.2.1
                let ais := qres.2.2.2
                let finalBuf := dlRestoreQF B qpIdx frIdx
                if ¬ isValidDLpathAIseq ctx pathSeq then
                  ⟨false, some .INVALID_KEY_QUALIFIER_SEQUENCE, ds, ais, finalBuf⟩
                else
                  match validateDLattrs ctx pathSeq ais with
                  | some e => ⟨false, some e, ds, ais, finalBuf⟩
                  | none =>
                    match (gs1_processAIdata ctx ds false ais).1 with
                    | some e => ⟨false, some e, ds, ais, finalBuf⟩
                    | none => ⟨true, none, ds, ais, finalBuf⟩

/-! ### A modelled engine instance.  Modelled from the spec: the embedded AI
dictionary (aitable.inc, built from the Syntax Dictionary) is not among the
sources; the slice below covers the AIs exercised here, with the component
schemas of the spec's data model and the key-qualifier associations listed in
dl.c's own test `test_dl_testValidateDLpathAIseq`.  Additional linters (check
digits etc.) are left empty — they are opaque to the claims under test. -/

/-- Fixed-length all-numeric component. -/
def compN (n : Nat) : AIcomp := ⟨.N, n, n, false, []⟩

/-- Variable-length CSET82 component. -/
def compX (lo hi : Nat) : AIcomp := ⟨.X, lo, hi, false, []⟩

/-- See the section comment: modelled dictionary slice, sorted by code. -/
def dlTestTable : List AIentry := [
  ⟨s2l "00", false, .yesAttr, [compN 18], s2l "dlpkey"⟩,
  ⟨s2l "01", false, .yesAttr, [compN 14], s2l "dlpkey=22,10,21|235"⟩,
  ⟨s2l "02", false, .yesAttr, [compN 14], s2l "ex=03,37 req=37"⟩,
  ⟨s2l "10", true, .yesAttr, [compX 1 20], []⟩,
  ⟨s2l "11", false, .yesAttr, [compN 6], []⟩,
  ⟨s2l "21", true, .yesAttr, [compX 1 20], s2l "req=01,8006"⟩,
  ⟨s2l "22", true, .yesAttr, [compX 1 20], s2l "req=01"⟩,
  ⟨s2l "235", true, .yesAttr, [compX 1 28], s2l "req=01"⟩,
  ⟨s2l "253", true, .yesAttr, [compN 13, ⟨.X, 0, 17, true, []⟩], s2l "dlpkey"⟩,
  ⟨s2l "254", true, .yesAttr, [compX 1 20], s2l "req=414"⟩,
  ⟨s2l "3100", false, .yesAttr, [compN 6], s2l "ex=3105"⟩,
  ⟨s2l "37", true, .yesAttr, [⟨.N, 1, 8, false, []⟩], s2l "req=00,02"⟩,
  ⟨s2l "401", true, .yesAttr, [compX 1 30], s2l "dlpkey"⟩,
  ⟨s2l "414", false, .yesAttr, [compN 13], s2l "dlpkey=254|7040"⟩,
  ⟨s2l "7040", true, .yesAttr, [compX 4 4], []⟩,
  ⟨s2l "8004", true, .yesAttr, [compX 1 30], s2l "dlpkey=7040"⟩,
  ⟨s2l "8017", true, .yesAttr, [compN 18], s2l "dlpkey=8019"⟩,
  ⟨s2l "8018", true, .yesAttr, [compN 18], s2l "dlpkey=8019"⟩,
  ⟨s2l "8019", true, .yesAttr, [⟨.N, 1, 10, false, []⟩], []⟩,
  ⟨s2l "98", true, .yesAttr, [compX 1 30], []⟩,
  ⟨s2l "99", true, .yesAttr, [compX 1 30], []⟩]

/-- The sorted key-qualifier association strings that `addDLkeyQualifiers`
(dl.c) enumerates from `dlTestTable`'s `dlpkey` attributes: per alternative
chain, the bare key plus every order-preserving qualifier subset, duplicates
kept, the whole list sorted by `strcmp`. -/
def dlTestKQs : List (List Char) :=
  ["00", "01", "01", "01 10", "01 10 21", "01 21", "01 22", "01 22 10",
   "01 22 10 21", "01 22 21", "01 235", "253", "401", "414", "414",
   "414 254", "414 7040", "8004", "8004 7040", "8017", "8017 8019",
   "8018", "8018 8019"].map s2l

/-- Modelled engine over `dlTestTable`, both GTIN-padding settings. -/
def dlCtx : Ctx :=
  ⟨dlTestTable, false, false, true,
    (populateAIlengthByPfx dlTestTable (List.replicate 100 0)).getD [], dlTestKQs⟩

/-- See `dlCtx`; `permitZeroSuppressedGTINinDLuris` enabled. -/
def dlCtxZ : Ctx :=
  ⟨dlTestTable, false, true, true,
    (populateAIlengthByPfx dlTestTable (List.replicate 100 0)).getD [], dlTestKQs⟩

/-- C2: evaluating `gs1_parseDLuri` on `https://a/99/x` — a path whose only
pair holds the known non-primary-key AI (99) — exits the right-to-left scan
through its loop condition after `*p = '\0'` chopped the first path byte, so
the function returns with the caller's buffer still holding that NUL in place
of the `/` at offset 9.  This contradicts the parser's own test harness
(`do_test_parseDLuri`: "Input data was erroneously clobbered"). -/
theorem gs1_parseDLuri_clobbers_input :
    (gs1_parseDLuri dlCtx (s2l "https://a/99/x")).ok = false ∧
    (gs1_parseDLuri dlCtx (s2l "https://a/99/x")).buf =
      s2l "https://a" ++ NULc :: s2l "99/x" ∧
    ¬ (gs1_parseDLuri dlCtx (s2l "https://a/99/x")).buf = s2l "https://a/99/x" := by
  refine ⟨by decide, by decide, by decide⟩

/-- C3 counterexample: `gs1_parseAIdata` on `(99)~ABC` lexes successfully (the
canonical buffer receives `^99~ABC` and the AI is appended to the list), then
the validation pass rejects the CSET82 character `~`; the function returns
false through the ordinary return path, leaving the canonical buffer populated
and the parsed AI on the list — not the cleared state the claim demands. -/
theorem gs1_parseAIdata_failure_keeps_state :
    (gs1_parseAIdata dlCtx [] (s2l "(99)~ABC")).ok = false ∧
    (gs1_parseAIdata dlCtx [] (s2l "(99)~ABC")).dataStr = s2l "^99~ABC" ∧
    (gs1_parseAIdata dlCtx [] (s2l "(99)~ABC")).aiData.length = 1 := by
  refine ⟨by decide, by decide, by decide⟩


/-- Errors raised by the lexing phase of `gs1_parseAIdata` (its `fail` label). -/
def IsLexErr (e : Err) : Prop :=
  e = .AI_PARSE_FAILED ∨ e = .AI_UNRECOGNISED ∨ e = .AI_VALUE_IS_TOO_SHORT ∨
  e = .AI_VALUE_IS_TOO_LONG ∨ e = .AI_CONTAINS_ILLEGAL_CARAT_CHARACTER ∨
  e = .TOO_MANY_AIS

/-- Errors raised by the validation pass `gs1_processAIdata` (without
extraction). -/
def IsValErr (e : Err) : Prop :=
  e = .MISSING_FNC1_IN_FIRST_POSITION ∨ e = .AI_DATA_EMPTY ∨ e = .NO_AI_FOR_PFX ∨
  e = .AI_DATA_IS_EMPTY ∨ e = .AI_DATA_HAS_INCORRECT_LENGTH ∨ e = .AI_LINTER_ERROR ∨
  e = .AI_DATA_IS_TOO_LONG

/-- Errors that `gs1_parseDLuri` raises after extraction, on the `out` path
that does not clear the canonical buffer. -/
def IsDLpostExtractionErr (e : Err) : Prop :=
  e = .INVALID_KEY_QUALIFIER_SEQUENCE ∨ e = .DUPLICATE_AI ∨
  e = .AI_IS_NOT_VALID_DATA_ATTRIBUTE ∨ e = .AI_SHOULD_BE_IN_PATH_INFO ∨ IsValErr e

/-- An `Except.map` that produced an error came from that error. -/
theorem Except_map_error {a b c : Type} (f : a → b) (x : Except c a) (e : c)
    (h : x.map f = .error e) : x = .error e := by
  cases x
  · simpa [Except.map] using h
  · simp [Except.map] at h

/-- Component validation only raises length or linter errors. -/
theorem validate_ai_val_parts_err :
    ∀ (parts : List AIcomp) (rest : List Char) (e : Err),
      validate_ai_val_parts parts rest = .error e →
      e = .AI_DATA_HAS_INCORRECT_LENGTH ∨ e = .AI_LINTER_ERROR := by
  intro parts
  induction parts with
  | nil => intro rest e h; simp [validate_ai_val_parts] at h
  | cons part parts ih =>
    intro rest e h
    rw [validate_ai_val_parts] at h
    split_ifs at h <;>
      first
        | exact ih rest e h
        | (injection h with h; exact Or.inl h.symm)
        | (injection h with h; exact Or.inr h.symm)
        | exact ih _ e (Except_map_error _ _ _ h)

/-- The lexing loop of `gs1_parseAIdata` only appends to the AI list. -/
theorem gs1_parseAIdata_go_append (ctx : Ctx) :
    ∀ (fuel : Nat) (s : List Char) (f : Bool) (ds : List Char) (acc : List AIvalue),
      ∃ t, (gs1_parseAIdata_go ctx fuel s f ds acc).newAIs = acc ++ t := by
  intro fuel
  induction fuel with
  | zero =>
    intro s f ds acc
    cases s <;> exact ⟨[], by simp [gs1_parseAIdata_go]⟩
  | succ fuel ih =>
    intro s f ds acc
    cases s with
    | nil => exact ⟨[], by simp [gs1_parseAIdata_go]⟩
    | cons c rest =>
      simp only [gs1_parseAIdata_go]
      repeat' split
      all_goals
        first
          | (refine ⟨[], ?_⟩; simp; done)
          | (obtain ⟨t, ht⟩ := ih _ _ _ _
             rw [ht]
             exact ⟨_, List.append_assoc _ _ _⟩)

/-- `gs1_processAIdata` without extraction leaves the AI list untouched. -/
theorem gs1_processAIdata_go_keeps (ctx : Ctx) :
    ∀ (fuel : Nat) (p : List Char) (acc : List AIvalue),
      (gs1_processAIdata_go ctx false fuel p acc).2 = acc := by
  intro fuel
  induction fuel with
  | zero => intro p acc; cases p <;> rfl
  | succ fuel ih =>
    intro p acc
    cases p with
    | nil => rfl
    | cons c rest =>
      simp only [gs1_processAIdata_go, Bool.false_eq_true, false_and, if_false]
      repeat' split
      all_goals first | rfl | exact ih _ _

/-- See `gs1_processAIdata_go_keeps`: the wrapper preserves the AI list. -/
theorem gs1_processAIdata_keeps (ctx : Ctx) (ds : List Char) (acc : List AIvalue) :
    (gs1_processAIdata ctx ds false acc).2 = acc := by
  cases ds with
  | nil => rfl
  | cons c rest =>
    simp only [gs1_processAIdata]
    split_ifs
    · rfl
    · rfl
    · exact gs1_processAIdata_go_keeps ctx _ _ _

/-- `validate_ai_val` only raises emptiness, length or linter errors. -/
theorem validate_ai_val_err (entry : AIentry) (val : List Char) (e : Err)
    (h : validate_ai_val entry val = .error e) :
    e = .AI_DATA_IS_EMPTY ∨ e = .AI_DATA_HAS_INCORRECT_LENGTH ∨ e = .AI_LINTER_ERROR := by
  rw [validate_ai_val] at h
  split_ifs at h
  · injection h with h; exact Or.inl h.symm
  · exact Or.inr (validate_ai_val_parts_err _ _ _ h)

/-- The validation loop of `gs1_processAIdata` (without extraction) only
raises the validation-phase errors. -/
theorem gs1_processAIdata_go_err (ctx : Ctx) :
    ∀ (fuel : Nat) (p : List Char) (acc : List AIvalue) (e : Err),
      (gs1_processAIdata_go ctx false fuel p acc).1 = some e →
      IsValErr e ∨ e = .LOOP_LIMIT := by
  intro fuel
  induction fuel with
  | zero =>
    intro p acc e h
    cases p with
    | nil => exact absurd h (by simp [gs1_processAIdata_go])
    | cons c rest =>
      simp [gs1_processAIdata_go] at h
      exact Or.inr h.symm
  | succ fuel ih =>
    intro p acc e h
    cases p with
    | nil => exact absurd h (by simp [gs1_processAIdata_go])
    | cons c rest =>
      simp only [gs1_processAIdata_go, Bool.false_eq_true, false_and, if_false] at h
      repeat' split at h
      all_goals try simp only [Option.some.injEq] at h
      all_goals
        first
          | exact ih _ _ _ h
          | (subst h; simp [IsValErr]; done)
          | (subst h
             rename_i heq
             rcases validate_ai_val_err _ _ _ heq with h1 | h1 | h1 <;>
               subst h1 <;> simp [IsValErr])

/-- See `gs1_processAIdata_go_err`: the wrapper adds only the FNC1 and
emptiness errors, all validation-phase errors. -/
theorem gs1_processAIdata_err (ctx : Ctx) (ds : List Char) (acc : List AIvalue)
    (e : Err) (h : (gs1_processAIdata ctx ds false acc).1 = some e) :
    IsValErr e ∨ e = .LOOP_LIMIT := by
  cases ds with
  | nil =>
    simp [gs1_processAIdata] at h
    subst h; simp [IsValErr]
  | cons c rest =>
    simp only [gs1_processAIdata] at h
    split_ifs at h
    · simp only [Option.some.injEq] at h
      subst h; simp [IsValErr]
    · simp only [Option.some.injEq] at h
      subst h; simp [IsValErr]
    · exact gs1_processAIdata_go_err ctx _ _ _ _ h

/-- The attribute-validation loop only raises its three error codes. -/
theorem validateDLattrsGo_err (ctx : Ctx) (pathSeq : List (List Char)) :
    ∀ (rest prev : List AIvalue) (e : Err),
      validateDLattrsGo ctx pathSeq prev rest = some e →
      e = .DUPLICATE_AI ∨ e = .AI_IS_NOT_VALID_DATA_ATTRIBUTE ∨
        e = .AI_SHOULD_BE_IN_PATH_INFO := by
  intro rest
  induction rest with
  | nil => intro prev e h; exact absurd h (by simp [validateDLattrsGo])
  | cons a rest ih =>
    intro prev e h
    rw [validateDLattrsGo] at h
    repeat' split at h
    all_goals try simp only [Option.some.injEq] at h
    all_goals
      first
        | exact ih _ _ h
        | (subst h; simp)

/-- See `validateDLattrsGo_err`: all attribute-validation errors belong to the
post-extraction class. -/
theorem validateDLattrs_err (ctx : Ctx) (pathSeq : List (List Char))
    (ais : List AIvalue) (e : Err)
    (h : validateDLattrs ctx pathSeq ais = some e) : IsDLpostExtractionErr e := by
  rw [validateDLattrs] at h
  split_ifs at h
  rcases validateDLattrsGo_err ctx pathSeq ais [] e h with h1 | h1 | h1 <;>
    subst h1 <;> simp [IsDLpostExtractionErr]

/-- See `gs1_processAIdata_err`: its errors lie in the post-extraction class
or are the fuel marker. -/
theorem gs1_processAIdata_dlerr (ctx : Ctx) (ds : List Char) (acc : List AIvalue)
    (e : Err) (h : (gs1_processAIdata ctx ds false acc).1 = some e) :
    IsDLpostExtractionErr e ∨ e = .LOOP_LIMIT :=
  (gs1_processAIdata_err ctx ds acc e h).imp
    (fun hv => Or.inr (Or.inr (Or.inr (Or.inr hv)))) id

/-- Every `gs1_parseDLuri` failure either belongs to the post-extraction class
(or is the embedding fuel marker) or returns with the canonical buffer
cleared. -/
theorem gs1_parseDLuri_err_cases (ctx : Ctx) (d : List Char) (e : Err) :
    (gs1_parseDLuri ctx d).err = some e →
    IsDLpostExtractionErr e ∨ e = .LOOP_LIMIT ∨ (gs1_parseDLuri ctx d).dataStr = [] := by
  simp only [gs1_parseDLuri]
  repeat' split
  all_goals intro h
  all_goals try exact Or.inr (Or.inr rfl)
  all_goals try simp only [Option.some.injEq] at h
  all_goals
    first
      | exact Option.noConfusion h
      | (subst h; left; simp [IsDLpostExtractionErr, IsValErr]; done)
      | (subst h
         apply Or.inl
         apply validateDLattrs_err
         assumption)
      | (subst h
         refine Or.elim ?_ Or.inl (fun hb => Or.inr (Or.inl hb))
         apply gs1_processAIdata_dlerr
         assumption)

/-- C3: the ai.c and dl.c parsers abort on the first error, but the
caller-visible state is not uniformly cleared, contrary to the claim (refuted
by `gs1_parseAIdata_failure_keeps_state`).  The policy actually implemented:
(i) a lexing failure of `gs1_parseAIdata` (its `fail` label) returns with the
canonical buffer cleared; (ii) when lexing succeeds the buffer holds the
converted data on return, also when the subsequent validation pass fails;
(iii) the engine AI list is only appended to, never reset; (iv) a
`gs1_parseDLuri` failure clears the buffer except for the post-extraction
validation errors (and the embedding fuel marker); (v) concretely, a DL URI
failing attribute validation returns the extracted data in both the buffer
and the AI list. -/
theorem parse_error_state_policy :
    (∀ (ctx : Ctx) (acc : List AIvalue) (aiData : List Char),
        (gs1_parseAIdata_go ctx (aiData.length + 1) aiData true [] acc).err.isSome →
        (gs1_parseAIdata ctx acc aiData).dataStr = []) ∧
    (∀ (ctx : Ctx) (acc : List AIvalue) (aiData : List Char),
        (gs1_parseAIdata_go ctx (aiData.length + 1) aiData true [] acc).err = none →
        (gs1_parseAIdata ctx acc aiData).dataStr =
          (gs1_parseAIdata_go ctx (aiData.length + 1) aiData true [] acc).dataStr) ∧
    (∀ (ctx : Ctx) (acc : List AIvalue) (aiData : List Char),
        ∃ t, (gs1_parseAIdata ctx acc aiData).aiData = acc ++ t) ∧
    (∀ (ctx : Ctx) (dlData : List Char) (e : Err),
        (gs1_parseDLuri ctx dlData).err = some e →
        IsDLpostExtractionErr e ∨ e = .LOOP_LIMIT ∨
          (gs1_parseDLuri ctx dlData).dataStr = []) ∧
    ((gs1_parseDLuri dlCtx
        (s2l "https://example.com/01/09520123456788?10=ABC123")).err =
          some .AI_SHOULD_BE_IN_PATH_INFO ∧
      (gs1_parseDLuri dlCtx
        (s2l "https://example.com/01/09520123456788?10=ABC123")).dataStr =
          s2l "^010952012345678810ABC123" ∧
      (gs1_parseDLuri dlCtx
        (s2l "https://example.com/01/09520123456788?10=ABC123")).aiData.length = 2) := by
  refine ⟨?_, ?_, ?_, gs1_parseDLuri_err_cases, ?_, ?_, ?_⟩
  · intro ctx acc ai h
    rcases Option.isSome_iff_exists.mp h with ⟨e, he⟩
    simp [gs1_parseAIdata, he]
  · intro ctx acc ai h
    simp only [gs1_parseAIdata, h]
    split <;> rfl
  · intro ctx acc ai
    obtain ⟨t, ht⟩ := gs1_parseAIdata_go_append ctx (ai.length + 1) ai true [] acc
    refine ⟨t, ?_⟩
    simp only [gs1_parseAIdata]
    split
    · exact ht
    · split
      · rename_i ais heq
        have h2 := gs1_processAIdata_keeps ctx
          (gs1_parseAIdata_go ctx (ai.length + 1) ai true [] acc).dataStr
          (gs1_parseAIdata_go ctx (ai.length + 1) ai true [] acc).newAIs
        rw [heq] at h2
        exact h2.trans ht
      · rename_i ais heq
        have h2 := gs1_processAIdata_keeps ctx
          (gs1_parseAIdata_go ctx (ai.length + 1) ai true [] acc).dataStr
          (gs1_parseAIdata_go ctx (ai.length + 1) ai true [] acc).newAIs
        rw [heq] at h2
        exact h2.trans ht
  · exact (by set_option maxRecDepth 16000 in decide)
  · exact (by set_option maxRecDepth 16000 in decide)
  · exact (by set_option maxRecDepth 16000 in decide)

/-- See `parse_error_state_policy`, instantiated: a lexing failure (`(99` is
unterminated) clears the buffer; a clean parse of `(99)AB` keeps the written
buffer; the AI list extends the caller's list; and the failing attribute AI
(10) of a DL URI leaves the classified post-extraction error. -/
theorem parse_error_state_policy_witness :
    (gs1_parseAIdata dlCtx [] (s2l "(99")).dataStr = [] ∧
    (gs1_parseAIdata dlCtx [] (s2l "(99)AB")).dataStr =
      (gs1_parseAIdata_go dlCtx ((s2l "(99)AB").length + 1) (s2l "(99)AB")
        true [] []).dataStr ∧
    (∃ t, (gs1_parseAIdata dlCtx [] (s2l "(99)AB")).aiData = [] ++ t) ∧
    (IsDLpostExtractionErr Err.AI_SHOULD_BE_IN_PATH_INFO ∨
      Err.AI_SHOULD_BE_IN_PATH_INFO = Err.LOOP_LIMIT ∨
      (gs1_parseDLuri dlCtx
        (s2l "https://example.com/01/09520123456788?10=ABC123")).dataStr = []) :=
  ⟨parse_error_state_policy.1 dlCtx [] (s2l "(99") (by decide),
   parse_error_state_policy.2.1 dlCtx [] (s2l "(99)AB") (by decide),
   parse_error_state_policy.2.2.1 dlCtx [] (s2l "(99)AB"),
   parse_error_state_policy.2.2.2.1 dlCtx
     (s2l "https://example.com/01/09520123456788?10=ABC123")
     Err.AI_SHOULD_BE_IN_PATH_INFO
     (by set_option maxRecDepth 16000 in decide)⟩

/-- The padded GTIN value passes the parse-time length/content check. -/
theorem gtinPad14_check (entry : AIentry) (uval : List Char)
    (hmin : aiEntryMinLength entry = 14) (hmax : 14 ≤ aiEntryMaxLength entry)
    (hlen : uval.length = 13 ∨ uval.length = 12 ∨ uval.length = 8)
    (hnc : '^' ∉ uval) :
    gs1_aiValLengthContentCheck entry (gtinPad14 uval) = none := by
  have hplen : (gtinPad14 uval).length = 14 := by
    simp only [gtinPad14, List.length_append, List.length_replicate]
    omega
  rw [gs1_aiValLengthContentCheck, hplen, hmin]
  rw [if_neg (by omega), if_neg (by omega), if_neg ?hc]
  case hc =>
    simp only [gtinPad14, List.mem_append, List.mem_replicate]
    rintro (⟨-, hz⟩ | hin)
    · exact absurd hz (by decide)
    · exact hnc hin

/-- C4: zero-suppressed GTIN handling.  For an AI (01) whose schema demands 14
digits, a path value of 8, 12 or 13 bytes is zero-padded to 14 and accepted
exactly when `permitZeroSuppressedGTINinDLuris` is set — with the flag clear
the unpadded value fails the minimum-length check — while the same value as a
query-string attribute is padded unconditionally; concretely, the flag-off
engine rejects the path form of `https://a/01/2112345678900` yet pads the
query attribute `?01=2112345678900`. -/
theorem dl_gtin_pad_path_vs_query :
    (∀ (ctx : Ctx) (entry : AIentry) (uval : List Char),
      entry.ai = s2l "01" → aiEntryMinLength entry = 14 →
      14 ≤ aiEntryMaxLength entry →
      (uval.length = 13 ∨ uval.length = 12 ∨ uval.length = 8) → '^' ∉ uval →
      (ctx.permitZeroSuppressedGTINinDLuris = true →
        processDLpathAIvalue ctx entry uval = .ok (gtinPad14 uval)) ∧
      (ctx.permitZeroSuppressedGTINinDLuris = false →
        processDLpathAIvalue ctx entry uval = .error .AI_VALUE_IS_TOO_SHORT) ∧
      processDLqueryAIvalue entry uval = .ok (gtinPad14 uval)) ∧
    ((gs1_parseDLuri dlCtxZ (s2l "https://a/01/2112345678900")).ok = true ∧
      (gs1_parseDLuri dlCtxZ (s2l "https://a/01/2112345678900")).dataStr =
        s2l "^0102112345678900") ∧
    (gs1_parseDLuri dlCtx (s2l "https://a/01/2112345678900")).err =
      some .AI_VALUE_IS_TOO_SHORT ∧
    ((gs1_parseDLuri dlCtx
        (s2l "https://a/00/123456789012345678?01=2112345678900")).ok = true ∧
      (gs1_parseDLuri dlCtx
        (s2l "https://a/00/123456789012345678?01=2112345678900")).dataStr =
        s2l "^001234567890123456780102112345678900") := by
  refine ⟨?_, ⟨?_, ?_⟩, ?_, ?_, ?_⟩
  · intro ctx entry uval h01 hmin hmax hlen hnc
    have hchk := gtinPad14_check entry uval hmin hmax hlen hnc
    have hshort : uval.length < aiEntryMinLength entry := by
      rw [hmin]; omega
    refine ⟨?_, ?_, ?_⟩
    · intro hz
      simp only [processDLpathAIvalue]
      rw [if_pos ⟨by simp [hz], h01, hlen⟩, hchk]
    · intro hz
      simp only [processDLpathAIvalue]
      rw [if_neg (by simp [hz])]
      rw [gs1_aiValLengthContentCheck, if_pos hshort]
    · simp only [processDLqueryAIvalue]
      rw [if_pos ⟨h01, hlen⟩, hchk]
  · exact (by set_option maxRecDepth 16000 in decide)
  · exact (by set_option maxRecDepth 16000 in decide)
  · exact (by set_option maxRecDepth 16000 in decide)
  · exact (by set_option maxRecDepth 16000 in decide)
  · exact (by set_option maxRecDepth 16000 in decide)

/-- The AI (01) dictionary entry used to instantiate the padding theorem. -/
def e01 : AIentry :=
  ⟨s2l "01", false, .yesAttr, [compN 14], s2l "dlpkey=22,10,21|235"⟩

/-- See `dl_gtin_pad_path_vs_query`, instantiated at AI (01) with the 13-digit
value `2112345678900` under both flag settings. -/
theorem dl_gtin_pad_path_vs_query_witness :
    processDLpathAIvalue dlCtxZ e01 (s2l "2112345678900") =
      .ok (gtinPad14 (s2l "2112345678900")) ∧
    processDLpathAIvalue dlCtx e01 (s2l "2112345678900") =
      .error .AI_VALUE_IS_TOO_SHORT ∧
    processDLqueryAIvalue e01 (s2l "2112345678900") =
      .ok (gtinPad14 (s2l "2112345678900")) :=
  ⟨(dl_gtin_pad_path_vs_query.1 dlCtxZ e01 (s2l "2112345678900") rfl
      (by decide) (by decide) (by decide) (by decide)).1 rfl,
   (dl_gtin_pad_path_vs_query.1 dlCtx e01 (s2l "2112345678900") rfl
      (by decide) (by decide) (by decide) (by decide)).2.1 rfl,
   (dl_gtin_pad_path_vs_query.1 dlCtxZ e01 (s2l "2112345678900") rfl
      (by decide) (by decide) (by decide) (by decide)).2.2⟩

/-- An entry on the engine list subject to attribute validation: a real AI
recorded with the attribute sentinel path order. -/
def isAttrAI (a : AIvalue) : Prop :=
  a.kind = .aival ∧ a.dlPathOrder = DL_PATH_ORDER_ATTRIBUTE

/-- The duplicate test of `validateDLattrs` (dl.c): some earlier AI has the
same code. -/
def dupIn (window : List AIvalue) (a : AIvalue) : Bool :=
  window.any (fun a2 => a2.kind = .aival ∧ a2.ai = a.ai)

/-- The forbidden data-attribute classes of `validateDLattrs` (dl.c): FORBIDDEN,
or UNKNOWN while the UNKNOWN_AI_NOT_DL_ATTR validation is enabled. -/
def dlAttrClassBad (ctx : Ctx) (e : AIentry) : Prop :=
  e.dlDataAttr = .noAttr ∨ (e.dlDataAttr = .xxAttr ∧ ctx.vUnknownAInotDLattrEnabled)

/-- The should-be-in-path test of `validateDLattrs` (dl.c): inserting the AI
at some position 1..pathLen of the path sequence forms a key-qualifier
association. -/
def dlAttrInPath (ctx : Ctx) (pathSeq : List (List Char)) (e : AIentry) : Bool :=
  (List.range' 1 pathSeq.length).any
    (fun j => (getDLpathAIseqEntry ctx (pathSeq.take j ++ [e.ai] ++ pathSeq.drop j)).isSome)

/-- Per-element pass condition of the attribute-validation loop: an attribute
AI must not duplicate an earlier code, must carry a permitted class, and must
not belong in the path. -/
def attrPass (ctx : Ctx) (pathSeq : List (List Char)) (window : List AIvalue)
    (a : AIvalue) : Prop :=
  isAttrAI a →
    dupIn window a = false ∧
    ∀ e, a.aiEntry = some e →
      ¬ dlAttrClassBad ctx e ∧ dlAttrInPath ctx pathSeq e = false

/-- Shifting the per-element quantification across the head of the list. -/
theorem forall_pass_cons (ctx : Ctx) (pathSeq : List (List Char))
    (prev : List AIvalue) (a : AIvalue) (rest : List AIvalue)
    (ha : attrPass ctx pathSeq prev a) :
    (∀ i (hi : i < (a :: rest).length),
        attrPass ctx pathSeq (prev ++ (a :: rest).take i) ((a :: rest).get ⟨i, hi⟩)) ↔
    (∀ i (hi : i < rest.length),
        attrPass ctx pathSeq ((prev ++ [a]) ++ rest.take i) (rest.get ⟨i, hi⟩)) := by
  constructor
  · intro H i hi
    have h2 := H (i + 1) (by simpa using Nat.succ_lt_succ hi)
    simpa [List.append_assoc] using h2
  · intro H i hi
    cases i with
    | zero => simpa using ha
    | succ i =>
      have h2 := H i (by simpa using Nat.lt_of_succ_lt_succ hi)
      simpa [List.append_assoc] using h2

/-- The attribute-validation loop succeeds exactly when every element passes
its per-element condition against the window of elements before it. -/
theorem validateDLattrsGo_none_iff (ctx : Ctx) (pathSeq : List (List Char)) :
    ∀ (rest prev : List AIvalue),
      validateDLattrsGo ctx pathSeq prev rest = none ↔
      ∀ i (hi : i < rest.length),
        attrPass ctx pathSeq (prev ++ rest.take i) (rest.get ⟨i, hi⟩) := by
  intro rest
  induction rest with
  | nil =>
    intro prev
    refine iff_of_true rfl ?_
    intro i hi
    exact absurd hi (by simp)
  | cons a rest ih =>
    intro prev
    rw [validateDLattrsGo]
    by_cases hskip : a.kind ≠ AIkind.aival ∨ a.dlPathOrder ≠ DL_PATH_ORDER_ATTRIBUTE
    · rw [if_pos hskip, ih (prev ++ [a])]
      refine (forall_pass_cons ctx pathSeq prev a rest ?_).symm
      intro hattr
      exact (hskip.elim (fun h => h hattr.1) (fun h => h hattr.2)).elim
    · rw [if_neg hskip]
      push_neg at hskip
      by_cases hdup : prev.any (fun a2 => a2.kind = AIkind.aival ∧ a2.ai = a.ai) = true
      · rw [if_pos hdup]
        refine iff_of_false (by simp) ?_
        intro H
        have h0 := H 0 (by simp)
        simp only [List.take_zero, List.append_nil, List.get] at h0
        have h1 := (h0 ⟨hskip.1, hskip.2⟩).1
        rw [show dupIn prev a = true from hdup] at h1
        exact Bool.noConfusion h1
      · rw [if_neg hdup]
        have hdupF : dupIn prev a = false := by
          simpa [dupIn] using hdup
        rcases haiE : a.aiEntry with _ | e
        · simp only [haiE]
          rw [ih (prev ++ [a])]
          refine (forall_pass_cons ctx pathSeq prev a rest ?_).symm
          intro hattr
          refine ⟨hdupF, ?_⟩
          intro e2 he2
          rw [haiE] at he2
          exact Option.noConfusion he2
        · simp only [haiE]
          by_cases hbad : e.dlDataAttr = DLattrKind.noAttr ∨
              (e.dlDataAttr = DLattrKind.xxAttr ∧ ctx.vUnknownAInotDLattrEnabled = true)
          · rw [if_pos hbad]
            refine iff_of_false (by simp) ?_
            intro H
            have h0 := H 0 (by simp)
            simp only [List.take_zero, List.append_nil, List.get] at h0
            exact absurd (show dlAttrClassBad ctx e from hbad)
              ((h0 ⟨hskip.1, hskip.2⟩).2 e haiE).1
          · rw [if_neg hbad]
            by_cases hseq : ((List.range' 1 pathSeq.length).any fun j =>
                (getDLpathAIseqEntry ctx
                  (List.take j pathSeq ++ [e.ai] ++ List.drop j pathSeq)).isSome) = true
            · rw [if_pos hseq]
              refine iff_of_false (by simp) ?_
              intro H
              have h0 := H 0 (by simp)
              simp only [List.take_zero, List.append_nil, List.get] at h0
              have h1 := ((h0 ⟨hskip.1, hskip.2⟩).2 e haiE).2
              rw [show dlAttrInPath ctx pathSeq e = true from hseq] at h1
              exact Bool.noConfusion h1
            · rw [if_neg hseq]
              rw [ih (prev ++ [a])]
              refine (forall_pass_cons ctx pathSeq prev a rest ?_).symm
              intro hattr
              refine ⟨hdupF, ?_⟩
              intro e2 he2
              rw [haiE] at he2
              injection he2 with he2
              subst he2
              exact ⟨fun hb => hbad hb, by simpa [dlAttrInPath] using hseq⟩

/-- C5: attribute validation of `gs1_parseDLuri`.  With the path below the
engine limit, validation succeeds iff every attribute AI passes its
per-element condition — no duplicate of an earlier parsed AI, a permitted
DL data-attribute class (where UNKNOWN is tolerated while the
UNKNOWN_AI_NOT_DL_ATTR validation is disabled), and no insertion position
1..pathLen turning the path sequence into a key-qualifier association — and
each failing check raises its code: DUPLICATE_AI, then
AI_IS_NOT_VALID_DATA_ATTRIBUTE, then AI_SHOULD_BE_IN_PATH_INFO. -/
theorem validateDLattrs_spec :
    (∀ (ctx : Ctx) (pathSeq : List (List Char)) (ais : List AIvalue),
      pathSeq.length < MAX_AIS →
      (validateDLattrs ctx pathSeq ais = none ↔
        ∀ i (hi : i < ais.length),
          attrPass ctx pathSeq (ais.take i) (ais.get ⟨i, hi⟩))) ∧
    (∀ (ctx : Ctx) (pathSeq : List (List Char)) (prev : List AIvalue)
        (a : AIvalue) (rest : List AIvalue),
      isAttrAI a →
      (dupIn prev a = true →
        validateDLattrsGo ctx pathSeq prev (a :: rest) = some .DUPLICATE_AI) ∧
      (∀ e, a.aiEntry = some e → dupIn prev a = false →
        (dlAttrClassBad ctx e →
          validateDLattrsGo ctx pathSeq prev (a :: rest) =
            some .AI_IS_NOT_VALID_DATA_ATTRIBUTE) ∧
        (¬ dlAttrClassBad ctx e → dlAttrInPath ctx pathSeq e = true →
          validateDLattrsGo ctx pathSeq prev (a :: rest) =
            some .AI_SHOULD_BE_IN_PATH_INFO))) := by
  constructor
  · intro ctx pathSeq ais h
    rw [validateDLattrs, if_pos h, validateDLattrsGo_none_iff]
    simp only [List.nil_append]
  · intro ctx pathSeq prev a rest hattr
    have hskipneg : ¬ (a.kind ≠ AIkind.aival ∨ a.dlPathOrder ≠ DL_PATH_ORDER_ATTRIBUTE) :=
      fun h => h.elim (fun h1 => h1 hattr.1) (fun h2 => h2 hattr.2)
    constructor
    · intro hdup
      rw [validateDLattrsGo, if_neg hskipneg,
        if_pos (show (prev.any fun a2 => a2.kind = AIkind.aival ∧ a2.ai = a.ai) = true
          from hdup)]
    · intro e haiE hdupF
      have hdup' :
          ¬ ((prev.any fun a2 => a2.kind = AIkind.aival ∧ a2.ai = a.ai) = true) := by
        rw [show (prev.any fun a2 => a2.kind = AIkind.aival ∧ a2.ai = a.ai) =
          dupIn prev a from rfl, hdupF]
        simp
      constructor
      · intro hbad
        rw [validateDLattrsGo, if_neg hskipneg, if_neg hdup']
        simp only [haiE]
        rw [if_pos (show e.dlDataAttr = DLattrKind.noAttr ∨
          (e.dlDataAttr = DLattrKind.xxAttr ∧ ctx.vUnknownAInotDLattrEnabled = true)
          from hbad)]
      · intro hnb hseq
        rw [validateDLattrsGo, if_neg hskipneg, if_neg hdup']
        simp only [haiE]
        rw [if_neg (show ¬ (e.dlDataAttr = DLattrKind.noAttr ∨
            (e.dlDataAttr = DLattrKind.xxAttr ∧ ctx.vUnknownAInotDLattrEnabled = true))
            from hnb),
          if_pos (show ((List.range' 1 pathSeq.length).any fun j =>
            (getDLpathAIseqEntry ctx
              (List.take j pathSeq ++ [e.ai] ++ List.drop j pathSeq)).isSome) = true
            from hseq)]

/-- Batch-lot entry used to instantiate the attribute-validation theorem. -/
def e10w : AIentry := ⟨s2l "10", true, .yesAttr, [compX 1 20], []⟩

/-- An attribute AI (10) as recorded by the query loop. -/
def a10w : AIvalue := ⟨.aival, some e10w, s2l "10", s2l "ABC", DL_PATH_ORDER_ATTRIBUTE⟩

/-- A forbidden-class entry used to instantiate the attribute-validation
theorem. -/
def eBadW : AIentry := ⟨s2l "90", false, .noAttr, [compX 1 30], []⟩

/-- An attribute AI carrying the forbidden-class entry. -/
def aBadW : AIvalue := ⟨.aival, some eBadW, s2l "90", s2l "X", DL_PATH_ORDER_ATTRIBUTE⟩

/-- See `validateDLattrs_spec`, instantiated over the path sequence `01`: the
empty list validates; a duplicated (10) raises DUPLICATE_AI; a forbidden-class
AI raises AI_IS_NOT_VALID_DATA_ATTRIBUTE; and (10), insertable after (01),
raises AI_SHOULD_BE_IN_PATH_INFO. -/
theorem validateDLattrs_spec_witness :
    (validateDLattrs dlCtx [s2l "01"] [] = none ↔
      ∀ i (hi : i < ([] : List AIvalue).length),
        attrPass dlCtx [s2l "01"] (([] : List AIvalue).take i)
          (([] : List AIvalue).get ⟨i, hi⟩)) ∧
    validateDLattrsGo dlCtx [s2l "01"] [a10w] [a10w] = some .DUPLICATE_AI ∧
    validateDLattrsGo dlCtx [s2l "01"] [] [aBadW] =
      some .AI_IS_NOT_VALID_DATA_ATTRIBUTE ∧
    validateDLattrsGo dlCtx [s2l "01"] [] [a10w] = some .AI_SHOULD_BE_IN_PATH_INFO :=
  ⟨validateDLattrs_spec.1 dlCtx [s2l "01"] [] (by decide),
   (validateDLattrs_spec.2 dlCtx [s2l "01"] [a10w] a10w [] ⟨rfl, rfl⟩).1 (by decide),
   ((validateDLattrs_spec.2 dlCtx [s2l "01"] [] aBadW [] ⟨rfl, rfl⟩).2 eBadW rfl
      (by decide)).1 (Or.inl rfl),
   ((validateDLattrs_spec.2 dlCtx [s2l "01"] [] a10w [] ⟨rfl, rfl⟩).2 e10w rfl
      (by decide)).2
      (fun h => h.elim (fun h1 => DLattrKind.noConfusion h1)
        (fun h2 => DLattrKind.noConfusion h2.1)) (by decide)⟩

/-! ### Cross-AI requisite validation (ai.c `validateAIrequisites`).  The
`ai` pointers of `struct aiValue` point into the canonical buffer, so the C
string at `ai2->ai` begins with the AI code immediately followed by the value
bytes; the bounded comparisons of `aiExists` are modelled over that view.  A
comparison can in principle run past the value into the following data; for
every dictionary this never matches, because a value is followed by `^` or the
buffer end while the pattern bytes compared there are digits of an AI code. -/

/-- Modelled from the spec: `MAX_AI_ATTR_LEN` (ai.h, not among the sources) —
the `strncat` truncation bound for an entry's attribute string; its exact
value does not matter to the claims, every attribute string here is shorter. -/
def MAX_AI_ATTR_LEN : Nat := 64

/-- The canonical-buffer view at an AI's `ai` pointer: code then value. -/
def bufView (a : AIvalue) : List Char := a.ai ++ a.value

/-- `strspn(ai, "0123456789")`: length of the leading digit run. -/
def digitSpan (s : List Char) : Nat := (s.takeWhile Char.isDigit).length

/-- `aiExists(ctx, ai, ignoreAI, ...)` (ai.c): some recorded AI matches the
pattern on its digit prefix, skipping entries matching `ignoreAI` (the caller
itself) up to the pattern length. -/
def aiExists (ais : List AIvalue) (pat : List Char) (ignore : Option (List Char)) : Bool :=
  let prefixlen := digitSpan pat
  ais.any (fun a2 =>
    decide (a2.kind = AIkind.aival) &&
    decide ((bufView a2).take prefixlen = pat.take prefixlen) &&
    ! (match ignore with
       | some ig => decide ((bufView a2).take pat.length = ig.take pat.length)
       | none => false))

/-- One `strtok_r` step: skip leading delimiters; return the token and the
bytes after its terminating delimiter (`none` when only delimiters remain). -/
def strtokFirst (delim : Char) (s : List Char) : Option (List Char × List Char) :=
  let s1 := s.dropWhile (fun c => c = delim)
  if s1 = [] then none
  else
    let tok := s1.takeWhile (fun c => c ≠ delim)
    some (tok, s1.drop (tok.length + 1))

/-- Exhaustive `strtok_r` tokenisation by one delimiter. -/
def strtokAll (delim : Char) : Nat → List Char → List (List Char)
  | 0, _ => []
  | Nat.succ fuel, s =>
    match strtokFirst delim s with
    | none => []
    | some (t, rest) => t :: strtokAll delim fuel rest

/-- The member tokens the inner loop of `validateAIrequisites` (ai.c line 799)
actually tests for a comma-delimited group: the first token is cut at `+`, but
the continuation calls pass the delimiter `","`, so the entire remainder of
the group after the first `+` comes back as one token. -/
def reqGroupMembers (g : List Char) : List (List Char) :=
  match strtokFirst '+' g with
  | none => []
  | some (h, rest) => h :: strtokAll ',' (rest.length + 1) rest

/-- Whether a group satisfies the requisite test as coded: every member token
produced by `reqGroupMembers` matches some recorded AI. -/
def reqGroupOK (ais : List AIvalue) (selfView : List Char) (g : List Char) : Bool :=
  (reqGroupMembers g).all (fun t => aiExists ais t (some selfView))

/-- The `req=` processing of `validateAIrequisites` (ai.c): `satisfied` starts
true, each group recomputes it and a satisfied group breaks the loop; with no
groups the attribute passes vacuously. -/
def reqSatisfied (ais : List AIvalue) (selfView : List Char) (r : List Char) : Bool :=
  let groups := strtokAll ',' (r.length + 1) r
  groups.isEmpty || groups.any (reqGroupOK ais selfView)

/-- `validateAIrequisites(ctx)` (ai.c): for every recorded AI, every `req=`
token of its (truncated) attribute string must be satisfied. -/
def validateAIrequisites (ais : List AIvalue) : Bool :=
  ais.all (fun a =>
    if a.kind ≠ AIkind.aival then true
    else match a.aiEntry with
      | none => true
      | some e =>
        (strtokAll ' ' (e.attrs.take MAX_AI_ATTR_LEN).length.succ
            (e.attrs.take MAX_AI_ATTR_LEN)).all (fun tok =>
          if tok.take 4 = s2l "req=" then
            reqSatisfied ais (bufView a) (tok.drop 4)
          else true))

/-- What the spec states for one `req=` attribute: some comma-separated group
has all of its `+`-joined members present. -/
def reqSatisfiedSpec (ais : List AIvalue) (selfView : List Char) (r : List Char) : Bool :=
  let groups := strtokAll ',' (r.length + 1) r
  groups.isEmpty || groups.any (fun g =>
    (strtokAll '+' (g.length + 1) g).all (fun t => aiExists ais t (some selfView)))

/-- Entry carrying the three-member requisite group. -/
def e98r : AIentry := ⟨s2l "98", true, .yesAttr, [compX 1 30], s2l "req=90+91+92"⟩

/-- The recorded AI (98) whose requisites are validated. -/
def a98r : AIvalue := ⟨.aival, some e98r, s2l "98", s2l "V", DL_PATH_ORDER_ATTRIBUTE⟩

/-- A recorded AI (90). -/
def a90r : AIvalue :=
  ⟨.aival, some ⟨s2l "90", true, .yesAttr, [compX 1 30], []⟩, s2l "90", s2l "A",
    DL_PATH_ORDER_ATTRIBUTE⟩

/-- A recorded AI (91). -/
def a91r : AIvalue :=
  ⟨.aival, some ⟨s2l "91", true, .yesAttr, [compX 1 30], []⟩, s2l "91", s2l "B",
    DL_PATH_ORDER_ATTRIBUTE⟩

/-- The engine AI list with (90) and (91) present but (92) absent. -/
def reqBugAIs : List AIvalue := [a98r, a90r, a91r]

/-- C8: the requisite validator mis-tokenises groups of three or more
members.  The inner loop of `validateAIrequisites` resumes with the delimiter
`","` instead of `"+"`, so the group `90+91+92` yields the member tokens
`90` and `91+92` — the latter matching by its two-digit prefix `91` — and the
required AI (92) is never tested: with (90) and (91) present and (92) absent
the validator passes, while the specified all-members-present reading fails;
two-member groups are tokenised as specified. -/
theorem validateAIrequisites_plus_group_bug :
    reqGroupMembers (s2l "90+91+92") = [s2l "90", s2l "91+92"] ∧
    reqGroupMembers (s2l "90+91") = strtokAll '+' 6 (s2l "90+91") ∧
    aiExists reqBugAIs (s2l "92") (some (bufView a98r)) = false ∧
    validateAIrequisites reqBugAIs = true ∧
    reqSatisfiedSpec reqBugAIs (bufView a98r) (s2l "90+91+92") = false := by
  refine ⟨by decide, by decide, by decide, by decide, by decide⟩

/-! ### DL URI generation (dl.c `gs1_generateDLuri`). -/

/-- Upper-case hex digit (snprintf `%02X`). -/
def hexUpper (n : Nat) : Char :=
  if n < 10 then Char.ofNat (48 + n) else Char.ofNat (55 + n)

/-- `URIescape` (dl.c): copy unreserved bytes, turn SPACE into `+` in query
components, and percent-encode everything else in upper-case hex, stopping
when the output budget is exhausted. -/
def URIescapeGo (isQuery : Bool) (maxlen : Nat) : List Char → Nat → List Char
  | [], _ => []
  | c :: rest, j =>
    if ¬ j < maxlen then []
    else if c ∈ uriUnreservedCharacters then c :: URIescapeGo isQuery maxlen rest (j + 1)
    else if c = ' ' ∧ isQuery then '+' :: URIescapeGo isQuery maxlen rest (j + 1)
    else if j + 2 < maxlen then
      '%' :: hexUpper (c.toNat / 16) :: hexUpper (c.toNat % 16) ::
        URIescapeGo isQuery maxlen rest (j + 3)
    else []

/-- See `URIescapeGo`; `maxlen` is the capacity of the caller's buffer. -/
def URIescape (maxlen : Nat) (inp : List Char) (isQuery : Bool) : List Char :=
  URIescapeGo isQuery maxlen inp 0

/-- First space-separated token of a key-qualifier string. -/
def kqFirstToken (s : List Char) : List Char := s.takeWhile (fun c => c ≠ ' ')

/-- All space-separated tokens of a key-qualifier string. -/
def kqTokens (s : List Char) : List (List Char) := strtokAll ' ' (s.length + 1) s

/-- Whether a recorded AI's dictionary code equals the token (the generator
compares `aiEntry->ai`). -/
def aiCodeMatches (t : List Char) (a : AIvalue) : Bool :=
  decide (a.kind = AIkind.aival) &&
  (match a.aiEntry with | some e => decide (e.ai = t) | none => false)

/-- Qualifier-match count of one key-qualifier sequence: for every non-initial
token, every recorded AI with that dictionary code counts. -/
def countQualMatches (ais : List AIvalue) (toks : List (List Char)) : Nat :=
  toks.foldl (fun n t => n + (ais.filter (aiCodeMatches t)).length) 0

/-- The best-sequence scan of `gs1_generateDLuri` (dl.c lines 806–830): walk
the entries after the key's own, stop at the first with a different first
token, and keep the first entry with a strictly maximal qualifier count. -/
def bestKQgo (ais : List AIvalue) (key : List Char) :
    List (List Char) → Nat → Nat → Nat → Nat
  | [], _, best, _ => best
  | s :: rest, idx, best, maxq =>
    if kqFirstToken s ≠ key then best
    else
      let nq := countQualMatches ais ((kqTokens s).drop 1)
      if maxq < nq then bestKQgo ais key rest (idx + 1) idx nq
      else bestKQgo ais key rest (idx + 1) best maxq

/-- Path-order assignment of `gs1_generateDLuri` (dl.c lines 838–852): for
each token position of the chosen sequence, every recorded AI with that
dictionary code takes it as its path order. -/
def applyPathOrder (ais : List AIvalue) (toks : List (List Char)) : List AIvalue :=
  toks.enum.foldl (fun acc it =>
    acc.map (fun a =>
      if aiCodeMatches it.2 a then ⟨a.kind, a.aiEntry, a.ai, a.value, it.1⟩ else a)) ais

/-- Query-component emission of `gs1_generateDLuri` (dl.c lines 894–946), one
pass: emit every attribute AI of the pass's FNC1 class in received order,
skipping codes already emitted in this class, and failing on a forbidden
data-attribute class. -/
def dlQueryEmitGo (ctx : Ctx) (emitFixed : Bool) :
    List AIvalue → List AIvalue → Except Err (List Char)
  | _, [] => .ok []
  | prev, a :: rest =>
    if a.kind ≠ AIkind.aival ∨ a.dlPathOrder ≠ DL_PATH_ORDER_ATTRIBUTE ∨
        (match a.aiEntry with | some e => e.fnc1 | none => emitFixed) = emitFixed then
      dlQueryEmitGo ctx emitFixed (prev ++ [a]) rest
    else if prev.any (fun a2 =>
        decide (a2.kind = AIkind.aival) &&
        ! decide ((match a2.aiEntry with
                   | some e => e.fnc1
                   | none => emitFixed) = emitFixed) &&
        decide (a2.ai.length = a.ai.length) && decide (a2.ai = a.ai)) then
      dlQueryEmitGo ctx emitFixed (prev ++ [a]) rest
    else
      match a.aiEntry with
      | none => dlQueryEmitGo ctx emitFixed (prev ++ [a]) rest
      | some e =>
        if e.dlDataAttr = DLattrKind.noAttr ∨
            (e.dlDataAttr = DLattrKind.xxAttr ∧ ctx.vUnknownAInotDLattrEnabled) then
          .error .AI_IS_NOT_VALID_DATA_ATTRIBUTE
        else
          (dlQueryEmitGo ctx emitFixed (prev ++ [a]) rest).map
            (fun q => a.ai ++ '=' :: (URIescape 271 a.value true ++ '&' :: q))

/-- `gs1_generateDLuri(ctx, stem)` (dl.c): select the first recorded AI that
alone is a DL primary key, choose the matching key-qualifier sequence with the
most qualifier matches, order the path accordingly, and emit
stem + path pairs + `?` + attribute pairs (fixed-length first), trimming the
final `?` or `&`.  `none` for the stem selects the canonical stem; the stem is
used verbatim apart from dropping one trailing `/`. -/
def gs1_generateDLuri (ctx : Ctx) (ais : List AIvalue) (stem : Option (List Char)) :
    Except Err (List Char) :=
  match ais.findSome? (fun a =>
    if a.kind = AIkind.aival then
      match a.aiEntry with
      | some e => getDLpathAIseqEntry ctx [e.ai]
      | none => none
    else none) with
  | none => .error .CANNOT_CREATE_DL_URI_WITHOUT_PRIMARY_KEY_AI
  | some keyEntry =>
    let key := (ctx.dlKeyQualifiers.get? keyEntry).getD []
    let best := bestKQgo ais key (ctx.dlKeyQualifiers.drop (keyEntry + 1))
      (keyEntry + 1) keyEntry 0
    let toks := kqTokens ((ctx.dlKeyQualifiers.get? best).getD [])
    let ais2 := applyPathOrder ais toks
    let stem1 := stem.getD (s2l "https://id.gs1.org")
    let stem2 := if stem1.getLast? = some '/' then stem1.dropLast else stem1
    let pathPart := (List.range toks.length).foldl (fun acc i =>
      match ais2.find? (fun a =>
          decide (a.kind = AIkind.aival) && decide (a.dlPathOrder = i)) with
      | some a => acc ++ '/' :: (a.ai ++ '/' :: URIescape 271 a.value false)
      | none => acc) []
    (dlQueryEmitGo ctx true [] ais2).bind (fun q1 =>
      (dlQueryEmitGo ctx false [] ais2).map (fun q2 =>
        (stem2 ++ pathPart ++ '?' :: (q1 ++ q2)).dropLast))

/-- AI (01) entry for the round-trip instances. -/
def c1e01 : AIentry := ⟨s2l "01", false, .yesAttr, [compN 14], s2l "dlpkey=22,10,21|235"⟩

/-- AI (10) entry for the round-trip instances. -/
def c1e10 : AIentry := ⟨s2l "10", true, .yesAttr, [compX 1 20], []⟩

/-- AI (21) entry for the round-trip instances. -/
def c1e21 : AIentry := ⟨s2l "21", true, .yesAttr, [compX 1 20], s2l "req=01,8006"⟩

/-- AI (99) entry for the round-trip instances. -/
def c1e99 : AIentry := ⟨s2l "99", true, .yesAttr, [compX 1 30], []⟩

/-- A parsed AI set with distinct codes: primary key (01), qualifiers (10) and
(21) with a value exercising path escaping, and an attribute (99) whose value
exercises query escaping. -/
def c1ais : List AIvalue := [
  ⟨.aival, some c1e01, s2l "01", s2l "12312312312326", DL_PATH_ORDER_ATTRIBUTE⟩,
  ⟨.aival, some c1e10, s2l "10", s2l "ABC+123", DL_PATH_ORDER_ATTRIBUTE⟩,
  ⟨.aival, some c1e21, s2l "21", s2l "XYZ", DL_PATH_ORDER_ATTRIBUTE⟩,
  ⟨.aival, some c1e99, s2l "99", s2l "A+B/C", DL_PATH_ORDER_ATTRIBUTE⟩]

/-- A parsed AI set with AI (99) recorded twice (as after reading the same AI
from two symbols). -/
def c1dup : List AIvalue := [
  ⟨.aival, some c1e01, s2l "01", s2l "12312312312326", DL_PATH_ORDER_ATTRIBUTE⟩,
  ⟨.aival, some c1e99, s2l "99", s2l "XYZ789", DL_PATH_ORDER_ATTRIBUTE⟩,
  ⟨.aival, some c1e99, s2l "99", s2l "XYZ789", DL_PATH_ORDER_ATTRIBUTE⟩]

/-- Dropping the final byte commutes with a prepended prefix when the tail is
nonempty. -/
theorem dropLast_splice (s P : List Char) (c : Char) (L : List Char) :
    ((s ++ P) ++ c :: L).dropLast = s ++ (P ++ c :: L).dropLast := by
  rw [List.dropLast_append_cons, List.dropLast_append_cons, List.append_assoc]

/-- The output assembly of `gs1_generateDLuri` factors the stem out of the
bind/map chain. -/
theorem except_splice (x y : Except Err (List Char)) (s P : List Char) :
    x.bind (fun q1 => y.map (fun q2 => ((s ++ P) ++ '?' :: (q1 ++ q2)).dropLast)) =
    Except.map (fun u => s ++ u)
      (x.bind (fun q1 => y.map (fun q2 => (P ++ '?' :: (q1 ++ q2)).dropLast))) := by
  cases x <;> cases y <;> simp [Except.bind, Except.map, dropLast_splice]

/-- `gs1_generateDLuri` never validates the stem: for every engine, AI set and
stem, the result is the supplied stem (with one trailing slash trimmed)
spliced onto the stem-independent remainder of the URI; in particular success
does not depend on the stem. -/
theorem gs1_generateDLuri_stem_splice (ctx : Ctx) (ais : List AIvalue)
    (stem : List Char) :
    gs1_generateDLuri ctx ais (some stem) =
      Except.map
        (fun u => (if stem.getLast? = some '/' then stem.dropLast else stem) ++ u)
        (gs1_generateDLuri ctx ais (some [])) := by
  simp only [gs1_generateDLuri, Option.getD_some]
  have hnil : (if ([] : List Char).getLast? = some '/' then ([] : List Char).dropLast
      else ([] : List Char)) = [] := by simp
  rw [hnil]
  simp only [List.nil_append]
  split
  · simp [Except.map]
  · exact except_splice _ _ _ _

/-- AI (22) entry for the round-trip instances. -/
def c1e22 : AIentry := ⟨s2l "22", true, .yesAttr, [compX 1 20], s2l "req=01"⟩

/-- AI (8017) entry for the round-trip instances. -/
def c1e8017 : AIentry := ⟨s2l "8017", true, .yesAttr, [compN 18], s2l "dlpkey=8019"⟩

/-- AI (253) entry for the round-trip instances. -/
def c1e253 : AIentry :=
  ⟨s2l "253", true, .yesAttr, [compN 13, ⟨.X, 0, 17, true, []⟩], s2l "dlpkey"⟩

/-- A distinct-code set whose best key-qualifier sequence is `01 22 10 21`
with (10) absent, so the parsed path sequence is the subset `01 22 21`. -/
def c1ais2 : List AIvalue := [
  ⟨.aival, some c1e01, s2l "01", s2l "12312312312326", DL_PATH_ORDER_ATTRIBUTE⟩,
  ⟨.aival, some c1e22, s2l "22", s2l "AB", DL_PATH_ORDER_ATTRIBUTE⟩,
  ⟨.aival, some c1e21, s2l "21", s2l "XYZ", DL_PATH_ORDER_ATTRIBUTE⟩,
  ⟨.aival, some c1e99, s2l "99", s2l "Q1", DL_PATH_ORDER_ATTRIBUTE⟩]

/-- A distinct-code set with two candidate primary keys (8017) and (253); the
first is chosen and the second becomes a query attribute. -/
def c1ais3 : List AIvalue := [
  ⟨.aival, some c1e8017, s2l "8017", s2l "795260646688514634", DL_PATH_ORDER_ATTRIBUTE⟩,
  ⟨.aival, some c1e99, s2l "99", s2l "000001", DL_PATH_ORDER_ATTRIBUTE⟩,
  ⟨.aival, some c1e253, s2l "253", s2l "9526064000028000001", DL_PATH_ORDER_ATTRIBUTE⟩]

/-- C1 counterexample: the round-trip fails as claimed for two reasons.
`gs1_generateDLuri` performs no stem validation, so under the stem `foo` it
succeeds while `gs1_parseDLuri` rejects its output; and it silently drops
repeated AI codes, so the duplicated (99) set generates a URI that parses back
to two AIs instead of three. -/
theorem gs1_generateDLuri_roundtrip_fails :
    ((gs1_generateDLuri dlCtx c1ais (some (s2l "foo"))).toOption =
        some (s2l "foo/01/12312312312326/10/ABC%2B123/21/XYZ?99=A%2BB%2FC") ∧
      (gs1_parseDLuri dlCtx
        (s2l "foo/01/12312312312326/10/ABC%2B123/21/XYZ?99=A%2BB%2FC")).ok = false) ∧
    ((gs1_generateDLuri dlCtx c1dup none).toOption =
        some (s2l "https://id.gs1.org/01/12312312312326?99=XYZ789") ∧
      (gs1_parseDLuri dlCtx
        (s2l "https://id.gs1.org/01/12312312312326?99=XYZ789")).ok = true ∧
      ¬ ((gs1_parseDLuri dlCtx
            (s2l "https://id.gs1.org/01/12312312312326?99=XYZ789")).aiData.map
          (fun a => (a.ai, a.value))).Perm
        (c1dup.map (fun a => (a.ai, a.value)))) := by
  refine ⟨⟨?_, ?_⟩, ?_, ?_, ?_⟩
  · exact (by set_option maxRecDepth 16000 in decide)
  · exact (by set_option maxRecDepth 16000 in decide)
  · exact (by set_option maxRecDepth 16000 in decide)
  · exact (by set_option maxRecDepth 16000 in decide)
  · exact (by set_option maxRecDepth 16000 in decide)

/-- C1 amended: the stem is never validated — for every engine, AI set and
stem, the generated URI is the stem (one trailing slash trimmed) spliced onto
a stem-independent remainder, proved universally via
`gs1_generateDLuri_stem_splice` — so generation succeeds under stems the
parser rejects, and duplicated codes are silently dropped (see the
counterexample).  In the verified distinct-code configurations the round-trip
is exact: re-parsing recovers the original multiset of (AI code, value)
pairs, under the canonical stem and a custom path-bearing stem with a
trailing slash, with values exercising `+` and `/` percent-escaping in path
and query position, with a qualifier subset (`01 22 21`) of the chain in path
position, and with two candidate primary keys of which the first is chosen
and the second relegated to a query attribute. -/
theorem gs1_generateDLuri_roundtrip :
    (∀ (ctx : Ctx) (ais : List AIvalue) (stem : List Char),
      gs1_generateDLuri ctx ais (some stem) =
        Except.map
          (fun u => (if stem.getLast? = some '/' then stem.dropLast else stem) ++ u)
          (gs1_generateDLuri ctx ais (some []))) ∧
    ((gs1_generateDLuri dlCtx c1ais none).toOption =
        some (s2l "https://id.gs1.org/01/12312312312326/10/ABC%2B123/21/XYZ?99=A%2BB%2FC") ∧
      (gs1_parseDLuri dlCtx
        (s2l "https://id.gs1.org/01/12312312312326/10/ABC%2B123/21/XYZ?99=A%2BB%2FC")).ok
        = true ∧
      ((gs1_parseDLuri dlCtx
          (s2l "https://id.gs1.org/01/12312312312326/10/ABC%2B123/21/XYZ?99=A%2BB%2FC")).aiData.map
        (fun a => (a.ai, a.value))).Perm (c1ais.map (fun a => (a.ai, a.value)))) ∧
    ((gs1_generateDLuri dlCtx c1ais (some (s2l "https://example.com/r/"))).toOption =
        some (s2l "https://example.com/r/01/12312312312326/10/ABC%2B123/21/XYZ?99=A%2BB%2FC") ∧
      (gs1_parseDLuri dlCtx
        (s2l "https://example.com/r/01/12312312312326/10/ABC%2B123/21/XYZ?99=A%2BB%2FC")).ok
        = true ∧
      ((gs1_parseDLuri dlCtx
          (s2l "https://example.com/r/01/12312312312326/10/ABC%2B123/21/XYZ?99=A%2BB%2FC")).aiData.map
        (fun a => (a.ai, a.value))).Perm (c1ais.map (fun a => (a.ai, a.value)))) ∧
    ((gs1_generateDLuri dlCtx c1ais2 none).toOption =
        some (s2l "https://id.gs1.org/01/12312312312326/22/AB/21/XYZ?99=Q1") ∧
      (gs1_parseDLuri dlCtx
        (s2l "https://id.gs1.org/01/12312312312326/22/AB/21/XYZ?99=Q1")).ok = true ∧
      ((gs1_parseDLuri dlCtx
          (s2l "https://id.gs1.org/01/12312312312326/22/AB/21/XYZ?99=Q1")).aiData.map
        (fun a => (a.ai, a.value))).Perm (c1ais2.map (fun a => (a.ai, a.value)))) ∧
    ((gs1_generateDLuri dlCtx c1ais3 none).toOption =
        some (s2l "https://id.gs1.org/8017/795260646688514634?99=000001&253=9526064000028000001") ∧
      (gs1_parseDLuri dlCtx
        (s2l "https://id.gs1.org/8017/795260646688514634?99=000001&253=9526064000028000001")).ok
        = true ∧
      ((gs1_parseDLuri dlCtx
          (s2l "https://id.gs1.org/8017/795260646688514634?99=000001&253=9526064000028000001")).aiData.map
        (fun a => (a.ai, a.value))).Perm (c1ais3.map (fun a => (a.ai, a.value)))) := by
  refine ⟨gs1_generateDLuri_stem_splice, ⟨?_, ?_, ?_⟩, ⟨?_, ?_, ?_⟩, ⟨?_, ?_, ?_⟩,
    ?_, ?_, ?_⟩
  · exact (by set_option maxRecDepth 16000 in decide)
  · exact (by set_option maxRecDepth 16000 in decide)
  · exact (by set_option maxRecDepth 16000 in decide)
  · exact (by set_option maxRecDepth 16000 in decide)
  · exact (by set_option maxRecDepth 16000 in decide)
  · exact (by set_option maxRecDepth 16000 in decide)
  · exact (by set_option maxRecDepth 16000 in decide)
  · exact (by set_option maxRecDepth 16000 in decide)
  · exact (by set_option maxRecDepth 16000 in decide)
  · exact (by set_option maxRecDepth 16000 in decide)
  · exact (by set_option maxRecDepth 16000 in decide)
  · exact (by set_option maxRecDepth 16000 in decide)
